import Mathlib

/- Verification of `introspection.py` from the IMDb-GraphQL repository: a shallow
embedding of its schema registry, crawler and query synthesizer, with theorems
about the synthesized GraphQL documents.  Python strings are modelled as Lean
`String`; Python dicts keyed by type name as insertion-ordered association
lists; Python sets of names as lists consumed through `sortedSet` (the script
always applies `sorted(...)` before iterating a set it built).  Machine-level
concerns (HTTP, printing) are modelled by an oracle function and by explicit
result components. -/

namespace Introspection

/-! ## Python string idioms -/

/-- Python `sub in s` (substring containment), as an executable Bool. -/
def pyIn (sub s : String) : Bool :=
  s.toList.tails.any (fun t => sub.toList.isPrefixOf t)

/-- Python `s.startswith(pre)`. -/
def pyStartsWith (s pre : String) : Bool :=
  pre.toList.isPrefixOf s.toList

/-- Python `s.endswith(suf)`. -/
def pyEndsWith (s suf : String) : Bool :=
  suf.toList.isSuffixOf s.toList

/-- Python `s.strip()`: drop leading and trailing whitespace. -/
def pyStrip (s : String) : String :=
  String.mk (((s.toList.dropWhile Char.isWhitespace).reverse.dropWhile
      Char.isWhitespace).reverse)

/-- The repeated idiom `t.replace('!', '').replace('[', '').replace(']', '').strip()`
used throughout the script to reduce a type reference to its bare type name.
Replacing a single character by `''` deletes every occurrence, so the three
replaces together are a character filter. -/
def clean_type_name (s : String) : String :=
  pyStrip (String.mk (s.toList.filter (fun c => !(c == '!' || c == '[' || c == ']'))))

/-- Python `t.replace('!', '').strip()` (used on argument types in
`generate_example_query_for_operation`). -/
def strip_bang (s : String) : String :=
  pyStrip (String.mk (s.toList.filter (fun c => !(c == '!'))))

/-- `arg_type.endswith('!')`, the required-argument test. -/
def ends_with_bang (s : String) : Bool :=
  s.toList.getLast? == some '!'

/-- ASCII lower-case map, as Python `str.lower` acts on the characters that
occur in GraphQL names. -/
def lowerPairs : List (Char × Char) :=
  [('A','a'),('B','b'),('C','c'),('D','d'),('E','e'),('F','f'),('G','g'),
   ('H','h'),('I','i'),('J','j'),('K','k'),('L','l'),('M','m'),('N','n'),
   ('O','o'),('P','p'),('Q','q'),('R','r'),('S','s'),('T','t'),('U','u'),
   ('V','v'),('W','w'),('X','x'),('Y','y'),('Z','z')]

def upperPairs : List (Char × Char) := lowerPairs.map (fun p => (p.2, p.1))

def pyToLowerChar (c : Char) : Char :=
  ((lowerPairs.find? (fun p => p.1 == c)).map (fun p => p.2)).getD c

def pyToUpperChar (c : Char) : Char :=
  ((upperPairs.find? (fun p => p.1 == c)).map (fun p => p.2)).getD c

/-- Python `s.lower()`. -/
def pyLower (s : String) : String := String.mk (s.toList.map pyToLowerChar)

/-- Python `s.capitalize()`: first character upper-cased, the rest lower-cased. -/
def pyCapitalize (s : String) : String :=
  match s.toList with
  | [] => ""
  | c :: rest => String.mk (pyToUpperChar c :: rest.map pyToLowerChar)

/-- Python `"    " * k`, the indentation idiom of the query builders. -/
def pyIndent (k : Nat) : String := String.mk (List.replicate (4 * k) ' ')

/-- Python `sep.join(parts)`. -/
def pyJoin (sep : String) : List String → String
  | [] => ""
  | [x] => x
  | x :: y :: rest => x ++ sep ++ pyJoin sep (y :: rest)

/-- Python `s[1:-1]` followed by `.strip()` (used on sub-query bodies). -/
def sliceInnerStrip (s : String) : String :=
  pyStrip (String.mk ((s.toList.drop 1).dropLast))

/-- Lexicographic comparison used to model Python `sorted` on strings. -/
def strLe (a b : String) : Bool := decide (a < b) || a == b

def insertSorted (s : String) : List String → List String
  | [] => [s]
  | x :: xs => if strLe s x then s :: x :: xs else x :: insertSorted s xs

def sortStrings (l : List String) : List String := l.foldr insertSorted []

/-- Python `sorted(list(python_set))` where the set was accumulated from `l`:
duplicates are dropped, the remainder sorted. -/
def sortedSet (l : List String) : List String := sortStrings l.dedup

/-! ## Raw introspection type descriptors and `get_type_string` (the
`NON_NULL`/`LIST` wrapper flattening of §6 of the spec).  A raw descriptor is
the JSON value under a `type:`/`ofType:` key: `none` models a missing / `null`
/ empty (falsy) node, `name` is `""` when the JSON field is `null` or absent. -/

inductive RawTypeRef where
  | mk (name : String) (kind : String) (ofType : Option RawTypeRef)

def RawTypeRef.name : RawTypeRef → String
  | .mk n _ _ => n

def RawTypeRef.kind : RawTypeRef → String
  | .mk _ k _ => k

def RawTypeRef.ofType : RawTypeRef → Option RawTypeRef
  | .mk _ _ t => t

/-- Structural core of `get_type_string`; the inline matches on `ofType` are
the recursive call `get_type_string(of_type)` of the script (a missing or
falsy `ofType` gives `"Unknown"` there as well). -/
def get_type_string_core : RawTypeRef → String
  | .mk name kind ofType =>
    if kind == "NON_NULL" then
      (match ofType with
       | none => "Unknown"
       | some t => get_type_string_core t) ++ "!"
    else if kind == "LIST" then
      "[" ++ (match ofType with
              | none => "Unknown"
              | some t => get_type_string_core t) ++ "]"
    else if name != "" then name
    else
      match ofType with
      | some t => get_type_string_core t
      | none => kind ++ "(?)"

/-- `get_type_string` of the script: flattens a wrapper chain into the textual
type reference.  `none` models a falsy (`None` / `{}`) descriptor. -/
def get_type_string : Option RawTypeRef → String
  | none => "Unknown"
  | some t => get_type_string_core t

theorem get_type_string_some (t : RawTypeRef) :
    get_type_string (some t) = get_type_string_core t := rfl

/-- Structural core of `extract_type_names`. -/
def extract_type_names_core : RawTypeRef → List String
  | .mk name kind ofType =>
    (if name != "" &&
        (kind == "OBJECT" || kind == "INPUT_OBJECT" || kind == "ENUM" ||
         kind == "INTERFACE" || kind == "UNION")
     then [name] else []) ++
    (match ofType with
     | none => []
     | some t => extract_type_names_core t)

/-- `extract_type_names` of the script: every named node of object,
input-object, enum, interface or union kind in the wrapper chain.  The Python
set is modelled as a list of the elements in discovery order. -/
def extract_type_names : Option RawTypeRef → List String
  | none => []
  | some t => extract_type_names_core t

/-! ## Well-formed GraphQL type references (claim C9's grammar).
`WFT false l`: a bracket level without a trailing `!` (a name, or `[...]`);
`WFT true l`: optionally suffixed by a single `!`. -/

def isNameChar (c : Char) : Bool := c.isAlpha || c.isDigit || c == '_'

inductive WFT : Bool → List Char → Prop where
  | name (l : List Char) : l ≠ [] → (∀ c ∈ l, isNameChar c = true) → WFT false l
  | list (l : List Char) : WFT true l → WFT false ('[' :: (l ++ [']']))
  | up (l : List Char) : WFT false l → WFT true l
  | bang (l : List Char) : WFT false l → WFT true (l ++ ['!'])

/-- Raw descriptors with standard GraphQL wrapper structure: wrapper kinds
(`NON_NULL` never directly wrapping `NON_NULL`), valid names on named nodes,
truncated chains (`none`) allowed anywhere.  `GoodRaw false r`: flattening `r`
yields a bare level; `GoodRaw true r`: it may carry one outer `!`. -/
inductive GoodRaw : Bool → Option RawTypeRef → Prop where
  | unknown : GoodRaw false none
  | named (name kind : String) (t : Option RawTypeRef) :
      kind ≠ "NON_NULL" → kind ≠ "LIST" → name ≠ "" →
      (∀ c ∈ name.toList, isNameChar c = true) →
      GoodRaw false (some (.mk name kind t))
  | listWrap (name : String) (t : Option RawTypeRef) :
      GoodRaw true t → GoodRaw false (some (.mk name "LIST" t))
  | thru (kind : String) (u : RawTypeRef) :
      kind ≠ "NON_NULL" → kind ≠ "LIST" → GoodRaw false (some u) →
      GoodRaw false (some (.mk "" kind (some u)))
  | up (r : Option RawTypeRef) : GoodRaw false r → GoodRaw true r
  | nonNull (name : String) (t : Option RawTypeRef) :
      GoodRaw false t → GoodRaw true (some (.mk name "NON_NULL" t))

theorem string_toList_append (s t : String) : (s ++ t).toList = s.toList ++ t.toList := by
  simp [String.toList, String.data_append]

theorem get_type_string_nonnull (name : String) (t : Option RawTypeRef) :
    get_type_string (some (.mk name "NON_NULL" t)) = get_type_string t ++ "!" := by
  cases t <;> rfl

theorem get_type_string_list (name : String) (t : Option RawTypeRef) :
    get_type_string (some (.mk name "LIST" t)) = "[" ++ get_type_string t ++ "]" := by
  cases t <;> rfl

theorem get_type_string_named (name kind : String) (t : Option RawTypeRef)
    (h1 : kind ≠ "NON_NULL") (h2 : kind ≠ "LIST") (h3 : name ≠ "") :
    get_type_string (some (.mk name kind t)) = name := by
  rw [get_type_string_some]
  unfold get_type_string_core
  simp [h1, h2, h3]

theorem get_type_string_thru (kind : String) (u : RawTypeRef)
    (h1 : kind ≠ "NON_NULL") (h2 : kind ≠ "LIST") :
    get_type_string (some (.mk "" kind (some u))) = get_type_string (some u) := by
  rw [get_type_string_some, get_type_string_some]
  conv_lhs => unfold get_type_string_core
  simp [h1, h2]

/-- Flattening a structurally sound raw descriptor yields a well-formed
type reference, at the matching grammar level. -/
theorem goodRaw_wft (b : Bool) (r : Option RawTypeRef) (h : GoodRaw b r) :
    WFT b (get_type_string r).toList := by
  induction h with
  | unknown =>
    exact WFT.name _ (by decide) (by decide)
  | named name kind t h1 h2 h3 h4 =>
    rw [get_type_string_named name kind t h1 h2 h3]
    refine WFT.name _ ?_ h4
    intro he
    apply h3
    cases name with
    | mk data =>
      simp [String.toList] at he
      subst he
      rfl
  | listWrap name t _ ih =>
    rw [get_type_string_list]
    have : ("[" ++ get_type_string t ++ "]").toList
        = '[' :: ((get_type_string t).toList ++ [']']) := by
      simp [string_toList_append]
    rw [this]
    exact WFT.list _ ih
  | thru kind u h1 h2 _ ih =>
    rw [get_type_string_thru kind u h1 h2]
    exact ih
  | up r _ ih => exact WFT.up _ ih
  | nonNull name t _ ih =>
    rw [get_type_string_nonnull]
    rw [string_toList_append]
    exact WFT.bang _ ih

/-- Helper for refuting well-formedness: a list that neither starts with `[`
nor is all name characters is not a bare level. -/
theorem not_wft_false (l : List Char) (c : Char) (hc : c ∈ l)
    (hbad : isNameChar c = false) (hhead : l.head? ≠ some '[') :
    ¬ WFT false l := by
  intro h
  cases h with
  | name _ _ hall => rw [hall c hc] at hbad; cases hbad
  | list m _ => exact hhead rfl

/-- Helper for refuting well-formedness at ref level: if additionally the list
does not end in `!`, it is not a type reference at all. -/
theorem not_wft_true (l : List Char) (hfalse : ¬ WFT false l)
    (hlast : l.getLast? ≠ some '!') : ¬ WFT true l := by
  intro h
  cases h with
  | up _ h0 => exact hfalse h0
  | bang m _ => rw [List.getLast?_concat] at hlast; exact hlast rfl

/-! ## The schema registry (`detailed_introspection_data`).
Processed descriptors as stored by `fetch_introspection_data`: type reference
strings are already flattened by `get_type_string`. -/

structure ArgDescr where
  name : String
  type : String
  description : String
  defaultValue : String
deriving DecidableEq

structure FieldDescr where
  name : String
  type : String
  description : String
  args : List ArgDescr
deriving DecidableEq

structure TypeEntry where
  name : String
  description : String
  kind : String
  depth : Nat
  fields : List FieldDescr
  related_types : List String
  argument_types : List String
  all_related_types : List String
  field_count : Nat
deriving DecidableEq

/-- `detailed_introspection_data`: a Python dict modelled as an
insertion-ordered association list with unique keys. -/
abbrev Registry := List (String × TypeEntry)

/-- `registry[name]` / `name in registry`. -/
def lookupType (reg : Registry) (name : String) : Option TypeEntry :=
  (reg.find? (fun p => p.1 == name)).map (fun p => p.2)

def hasType (reg : Registry) (name : String) : Bool :=
  (lookupType reg name).isSome

/-! ## Non-recursive synthesizer helpers -/

/-- `verify_field_exists_in_type`: the FieldValidator existence predicate.
The Python set comprehension drops falsy (empty) names. -/
def verify_field_exists_in_type (reg : Registry) (field_name type_name : String) : Bool :=
  match lookupType reg type_name with
  | none => false
  | some td => td.fields.any (fun f => f.name != "" && f.name == field_name)

/-- `required_args`: the arguments whose type string ends in `!`. -/
def required_args (f : FieldDescr) : List ArgDescr :=
  f.args.filter (fun a => ends_with_bang a.type)

/-- `is_field_queryable`: a field is queryable when it has no required
(non-null) argument. -/
def is_field_queryable (field : FieldDescr) (parent_type : String) : Bool :=
  (required_args field).isEmpty

/-- `is_scalar_type_validated`: built-in scalars; else registry kind ENUM or
SCALAR; else the custom-scalar naming heuristic. -/
def is_scalar_type_validated (reg : Registry) (field_type field_name parent_type : String) :
    Bool :=
  let clean_type := clean_type_name field_type
  if clean_type == "String" || clean_type == "Int" || clean_type == "Float" ||
     clean_type == "Boolean" || clean_type == "ID" then true
  else
    match lookupType reg clean_type with
    | some td => td.kind == "ENUM" || td.kind == "SCALAR"
    | none => ["date", "time", "url", "uri"].any (fun kw => pyIn kw (pyLower clean_type))

def scalar_priority_keywords : List String :=
  ["canonical", "adult", "verified", "original", "url", "year", "runtime",
   "title", "text", "name", "date", "time", "rating", "score", "rank",
   "status", "type", "length", "duration", "released", "premiered"]

/-- `prioritize_scalar_fields`: split into (priority, regular) preserving
order. -/
def prioritize_scalar_fields (scalar_fields : List FieldDescr) :
    List FieldDescr × List FieldDescr :=
  scalar_fields.partition
    (fun f => scalar_priority_keywords.any (fun kw => pyIn kw (pyLower f.name)))

def high_priority_patterns (type_name : String) : List String :=
  if type_name == "Title" then
    ["titletext", "originaltitletext", "primaryimage", "releasedate",
     "releaseyear", "runtime", "titletype", "ratingssummary", "plot",
     "metacritic", "certificate", "titlegenres", "spokenlangas",
     "countriesoforigin", "productionbudget", "productionStatus"]
  else if type_name == "Name" then
    ["nametext", "primaryimage", "primaryprofession", "birthdate",
     "deathdate", "knownfor", "height", "birthplace", "awards", "nickname"]
  else
    ["text", "image", "date", "year", "rating", "type", "name", "title",
     "summary", "description"]

/-- `prioritize_complex_fields`. -/
def prioritize_complex_fields (complex_fields : List FieldDescr) (type_name : String) :
    List FieldDescr × List FieldDescr :=
  complex_fields.partition (fun field =>
    (high_priority_patterns type_name).any (fun pat => pyIn pat (pyLower field.name)) ||
    (pyIn "Text" field.type && !pyIn "Connection" field.type) ||
    (pyIn "Image" field.type && !pyIn "Connection" field.type) ||
    (pyIn "Date" field.type && !pyIn "Connection" field.type))

/-- `determine_node_type_from_connection`: follow the connection's `edges`
field to the edge type, then the edge type's `node` field, through the
registry. -/
def determine_node_type_from_connection (reg : Registry) (connection_type : String) :
    Option String :=
  let clean_type := clean_type_name connection_type
  match lookupType reg clean_type with
  | none => none
  | some td =>
    match td.fields.find? (fun f => f.name == "edges") with
    | none => none
    | some edges_field =>
      let edge_type_str := clean_type_name edges_field.type
      match lookupType reg edge_type_str with
      | none => none
      | some etd =>
        match etd.fields.find? (fun f => f.name == "node") with
        | none => none
        | some node_field => some (clean_type_name node_field.type)

/-- The part of the connection pagination scaffold preceding the node body
(`{ edges { node ` with indentation). -/
def connection_scaffold_pre (depth : Nat) : String :=
  "\x7b\n" ++ pyIndent (depth + 1) ++ "edges \x7b\n" ++ pyIndent (depth + 2) ++ "node "

/-- The part of the connection pagination scaffold following the node body:
`cursor`, the full `pageInfo` block and `total`. -/
def connection_scaffold_post (depth : Nat) : String :=
  let indent := pyIndent (depth + 1)
  let edge_indent := pyIndent (depth + 2)
  "\n" ++ edge_indent ++ "cursor\n" ++ indent ++ "\x7d\n" ++ indent ++
    "pageInfo \x7b\n" ++ edge_indent ++ "hasNextPage\n" ++ edge_indent ++
    "hasPreviousPage\n" ++ edge_indent ++ "startCursor\n" ++ edge_indent ++
    "endCursor\n" ++ indent ++ "\x7d\n" ++ indent ++ "total\n" ++
    pyIndent depth ++ "\x7d"

/-- The fixed pagination scaffold shared by every connection query of the
script, around a node body. -/
def connection_scaffold (depth : Nat) (node_query : String) : String :=
  connection_scaffold_pre depth ++ node_query ++ connection_scaffold_post depth

/-- The id-only node body used by the generic / simple connection scaffolds. -/
def id_only_node_query (depth : Nat) : String :=
  "\x7b\n" ++ pyIndent (depth + 3) ++ "id\n" ++ pyIndent (depth + 2) ++ "\x7d"

/-- `build_generic_connection_query`: fixed pagination scaffold used when the
connection type is unknown to the registry (written here via
`connection_scaffold`, concatenating to the identical string). -/
def build_generic_connection_query (connection_type : String) (depth : Nat)
    (visited_types : List String) : String :=
  connection_scaffold depth (id_only_node_query depth)

/-- `build_simple_connection_with_id_only`: the same scaffold, used when the
node type has no fields. -/
def build_simple_connection_with_id_only (depth : Nat) : String :=
  connection_scaffold depth (id_only_node_query depth)

/-- The `"{\n" + "\n".join(lines) + "\n" + indent + "}"` body template shared
by the object-body builders. -/
def braces_block (closing_indent : String) (lines : List String) : String :=
  "\x7b\n" ++ pyJoin "\n" lines ++ "\n" ++ closing_indent ++ "\x7d"

/-- Scalar-selection loop of `build_ultra_safe_object_query`: at most two
additional ultra-verified scalar fields. -/
def ultra_safe_scalar_loop (reg : Registry) (type_name indent : String) :
    List FieldDescr → Nat → List String
  | [], _ => []
  | field :: rest, added =>
    if added ≥ 2 then []
    else if field.name != "id" &&
            is_scalar_type_validated reg field.type field.name type_name &&
            (required_args field).isEmpty &&
            verify_field_exists_in_type reg field.name type_name then
      (indent ++ field.name) :: ultra_safe_scalar_loop reg type_name indent rest (added + 1)
    else
      ultra_safe_scalar_loop reg type_name indent rest added

/-- `build_ultra_safe_object_query`. -/
def build_ultra_safe_object_query (reg : Registry) (type_name : String) (depth : Nat) :
    String :=
  match lookupType reg type_name with
  | none => "\x7b id \x7d"
  | some td =>
    let actual_fields := td.fields
    if actual_fields.isEmpty then "\x7b id \x7d"
    else
      let indent := pyIndent (depth + 1)
      let idSel : List String :=
        if actual_fields.any (fun f => f.name == "id") then [indent ++ "id"] else []
      let selected_fields := idSel ++ ultra_safe_scalar_loop reg type_name indent actual_fields 0
      if selected_fields.isEmpty then "\x7b id \x7d"
      else braces_block (pyIndent depth) selected_fields

/-- Scalar-selection loop of `build_validated_connection_query` (over
`priority_scalars[:max_node_fields]`, re-verifying each field); returns the
emitted lines and the final `fields_added` counter. -/
def connection_scalar_loop (reg : Registry) (node_type node_indent : String)
    (max_node_fields : Nat) : List FieldDescr → Nat → List String × Nat
  | [], added => ([], added)
  | field :: rest, added =>
    if added ≥ max_node_fields then ([], added)
    else if verify_field_exists_in_type reg field.name node_type then
      let r := connection_scalar_loop reg node_type node_indent max_node_fields rest (added + 1)
      ((node_indent ++ field.name) :: r.1, r.2)
    else
      connection_scalar_loop reg node_type node_indent max_node_fields rest added

/-- The `queryable` filter shared by `build_query_body` and
`build_validated_connection_query`: fields other than `id` with no required
argument. -/
def queryable_fields (fields : List FieldDescr) : List FieldDescr :=
  fields.filter (fun f => f.name != "id" && (required_args f).isEmpty)

/-- The strict-verification filter applied to queryable fields before
emission. -/
def verified_fields (reg : Registry) (type_name : String) (fields : List FieldDescr) :
    List FieldDescr :=
  fields.filter (fun f => verify_field_exists_in_type reg f.name type_name)

/-- The `fields_added == 0` fallback block of
`build_validated_connection_query`: one complex node field rendered through
`build_ultra_safe_object_query`. -/
def connection_fallback_complex (reg : Registry) (node_type node_indent : String)
    (depth : Nat) (fields_added : Nat) (verified_complex_fields : List FieldDescr) :
    List String :=
  if fields_added == 0 && !verified_complex_fields.isEmpty then
    match verified_complex_fields.head? with
    | none => []
    | some field =>
      if verify_field_exists_in_type reg field.name node_type &&
         hasType reg (clean_type_name field.type) then
        if build_ultra_safe_object_query reg (clean_type_name field.type) (depth + 2) != "" &&
           build_ultra_safe_object_query reg (clean_type_name field.type) (depth + 2) !=
             "\x7b id \x7d" then
          [node_indent ++ field.name ++ " " ++
            build_ultra_safe_object_query reg (clean_type_name field.type) (depth + 2)]
        else []
      else []
  else []

/-- The ultra-conservative complex-field block of
`build_validated_connection_query` (first priority complex field, only for a
whitelist of known-simple types). -/
def connection_safe_complex (reg : Registry) (node_type node_indent : String)
    (depth fields_added max_node_fields : Nat) (limit_fields : Bool)
    (verified_complex_fields : List FieldDescr) : List String :=
  if decide (fields_added < max_node_fields) && !verified_complex_fields.isEmpty &&
     !limit_fields then
    match (prioritize_complex_fields verified_complex_fields node_type).1.head? with
    | none => []
    | some field =>
      if verify_field_exists_in_type reg field.name node_type &&
         !pyIn "Connection" field.type &&
         hasType reg (clean_type_name field.type) &&
         ["Markdown", "Text", "Date", "MonthDay", "Year"].contains
           (clean_type_name field.type) then
        if build_ultra_safe_object_query reg (clean_type_name field.type) (depth + 2) != "" &&
           build_ultra_safe_object_query reg (clean_type_name field.type) (depth + 2) !=
             "\x7b id \x7d" then
          [node_indent ++ field.name ++ " " ++
            build_ultra_safe_object_query reg (clean_type_name field.type) (depth + 2)]
        else []
      else []
  else []

/-- `build_validated_connection_query`: pagination scaffold whose node type is
resolved through the registry, with fallbacks to the generic / id-only
scaffolds. -/
def build_validated_connection_query (reg : Registry) (connection_type : String)
    (depth : Nat) (visited_types : List String) (limit_fields : Bool) : String :=
  match lookupType reg (clean_type_name connection_type) with
  | none =>
    build_generic_connection_query (clean_type_name connection_type) depth visited_types
  | some _ =>
    match determine_node_type_from_connection reg (clean_type_name connection_type) with
    | none =>
      build_generic_connection_query (clean_type_name connection_type) depth visited_types
    | some node_type =>
      match lookupType reg node_type with
      | none =>
        build_generic_connection_query (clean_type_name connection_type) depth visited_types
      | some node_data =>
        if node_data.fields.isEmpty then build_simple_connection_with_id_only depth
        else
        let node_indent := pyIndent (depth + 3)
        let actual_node_fields := node_data.fields
        let idSel : List String :=
          if actual_node_fields.any (fun f => f.name == "id") then [node_indent ++ "id"]
          else []
        
          let verified_node_fields := queryable_fields actual_node_fields
          let verified := verified_fields reg node_type verified_node_fields
          let verified_scalar_fields := verified.filter
            (fun f => is_scalar_type_validated reg f.type f.name node_type)
          let verified_complex_fields := verified.filter
            (fun f => !is_scalar_type_validated reg f.type f.name node_type)
          let max_node_fields := if limit_fields then 2 else 3
          let ps := prioritize_scalar_fields verified_scalar_fields
          let r := connection_scalar_loop reg node_type node_indent max_node_fields
            (ps.1.take max_node_fields) 0
          let scalarLines := r.1
          let fields_added := r.2
          let fallbackComplex := connection_fallback_complex reg node_type node_indent
            depth fields_added verified_complex_fields
          let safeComplex := connection_safe_complex reg node_type node_indent depth
            fields_added max_node_fields limit_fields verified_complex_fields
          let node_fields := idSel ++ scalarLines ++ fallbackComplex ++ safeComplex
          let node_query := braces_block node_indent node_fields
          connection_scaffold depth node_query

/-- `edge_type.replace('Edge', '')` on the character list (Python `replace`
scans left to right). -/
def removeEdgeChars : List Char → List Char
  | 'E' :: 'd' :: 'g' :: 'e' :: rest => removeEdgeChars rest
  | c :: rest => c :: removeEdgeChars rest
  | [] => []

def removeEdgeAll (s : String) : String := String.mk (removeEdgeChars s.toList)

/-- Leading part of the edge scaffold (`{ node { id`). -/
def edge_scaffold_pre (depth : Nat) : String :=
  "\x7b\n" ++ pyIndent (depth + 1) ++ "node \x7b\n" ++ pyIndent (depth + 2) ++ "id"

/-- Trailing part of the edge scaffold (closing the node, then `cursor`). -/
def edge_scaffold_post (depth : Nat) : String :=
  let indent := pyIndent (depth + 1)
  "\n" ++ indent ++ "\x7d\n" ++ indent ++ "cursor\n" ++ pyIndent depth ++ "\x7d"

/-- The `{ node { id ... } cursor }` scaffold of `build_validated_edge_query`
with the optional spliced node-body content. -/
def edge_scaffold (depth : Nat) (mid : String) : String :=
  edge_scaffold_pre depth ++ mid ++ edge_scaffold_post depth

/-- The sub-query field budget of `build_validated_sub_query_improved`. -/
def max_sub_fields (depth : Nat) : Nat := if depth < 2 then 6 else 3

/-- The depth- and type-dependent field budget of `build_query_body` when the
caller passed none. -/
def effective_max_fields (clean_type : String) (depth : Nat) : Option Nat → Nat
  | some m => m
  | none =>
    if clean_type == "Title" || clean_type == "Name" then max (20 - depth * 4) 8
    else max (15 - depth * 3) 6

/-- Scalar budget loops of `build_query_body` (`for field in ...: if
fields_added >= limit: break; append`): equivalent to taking the first
`limit - added` entries. -/
def scalar_budget_lines (indent : String) (fields : List FieldDescr)
    (limit added : Nat) : List String :=
  (fields.take (limit - added)).map (fun f => indent ++ f.name)

mutual

/-- `build_query_body`, fuel-indexed: the script's recursion is bounded by its
`depth > 3` guard, so any sufficiently large fuel yields the script's value
(the fuel-0 fallback coincides with the depth-guard result). -/
def build_query_body (reg : Registry) : Nat → String → Nat → List String → Option Nat → String
  | 0, _, _, _, _ => "\x7b id \x7d"
  | fuel + 1, return_type, depth, visited_types, max_fields =>
    if depth > 3 then "\x7b id \x7d"
    else
      let clean_type := clean_type_name return_type
      if visited_types.contains clean_type then "\x7b id \x7d"
      else
        let visited := clean_type :: visited_types
        if pyIn "Connection" clean_type then
          build_validated_connection_query reg clean_type depth visited false
        else if pyIn "Edge" clean_type then
          build_validated_edge_query reg fuel clean_type depth visited
        else
          match lookupType reg clean_type with
          | none => "\x7b id \x7d"
          | some type_data =>
            if type_data.kind == "ENUM" then ""
            else if type_data.kind == "SCALAR" then ""
            else if !(type_data.kind == "OBJECT" || type_data.kind == "INTERFACE" ||
                      type_data.kind == "UNION" || type_data.kind == "INPUT_OBJECT") then
              "\x7b id \x7d"
            else build_object_body reg fuel clean_type depth visited max_fields type_data
termination_by structural fuel => fuel

/-- The object-body field selection of `build_query_body` (its tail after the
kind dispatch, factored out of the source function for the proofs; the
computed document is unchanged). -/
def build_object_body (reg : Registry) :
    Nat → String → Nat → List String → Option Nat → TypeEntry → String
  | 0, _, _, _, _, _ => "\x7b id \x7d"
  | fuel + 1, clean_type, depth, visited, max_fields0, type_data =>
    let actual_fields := type_data.fields
    let indent := pyIndent (depth + 1)
    let idSel : List String :=
      if actual_fields.any (fun f => f.name == "id") then [indent ++ "id"] else []
    let queryable := queryable_fields actual_fields
    let verified := verified_fields reg clean_type queryable
    let verified_scalar_fields := verified.filter
      (fun f => is_scalar_type_validated reg f.type f.name clean_type)
    let verified_complex_fields := verified.filter
      (fun f => !is_scalar_type_validated reg f.type f.name clean_type)
    let ps := prioritize_scalar_fields verified_scalar_fields
    let pc := prioritize_complex_fields verified_complex_fields clean_type
    let max_fields := effective_max_fields clean_type depth max_fields0
    let added0 := idSel.length
    let psLines := scalar_budget_lines indent ps.1 (max_fields - 3) added0
    let added1 := added0 + psLines.length
    let rsLines := scalar_budget_lines indent ps.2 (max_fields - 2) added1
    let added2 := added1 + rsLines.length
    -- In the source, `field_type` in the regular-complex loop is a stale read
    -- of the variable last assigned while splitting `queryable_fields` or
    -- while walking `priority_complex`.
    let stale0 := ((queryable.getLast?).map (fun f => f.type)).getD ""
    let r := complex_priority_loop reg fuel depth visited clean_type indent
      pc.1 added2 max_fields stale0
    let rcLines :=
      if depth < 3 && (clean_type == "Title" || clean_type == "Name") then
        complex_regular_loop reg fuel depth visited clean_type indent r.2.2
          (pc.2.take 2) r.2.1 max_fields
      else []
    let selected_fields := idSel ++ psLines ++ rsLines ++ r.1 ++ rcLines
    if selected_fields.isEmpty then "\x7b id \x7d"
    else braces_block (pyIndent depth) selected_fields
termination_by structural fuel => fuel

/-- Priority-complex loop of `build_query_body`; returns the emitted lines,
the final `fields_added` counter and the final (stale) `field_type`
variable. -/
def complex_priority_loop (reg : Registry) :
    Nat → Nat → List String → String → String → List FieldDescr → Nat → Nat → String →
    List String × Nat × String
  | 0, _, _, _, _, _, added, _, stale => ([], added, stale)
  | fuel + 1, depth, visited, clean_type, indent, fields, added, max_fields, stale =>
    match fields with
    | [] => ([], added, stale)
    | field :: rest =>
      if added ≥ max_fields then ([], added, stale)
      else
        let stale1 := field.type
        match build_validated_sub_query_improved reg fuel field depth visited clean_type with
        | some sub_query =>
          let r := complex_priority_loop reg fuel depth visited clean_type indent rest
            (added + 1) max_fields stale1
          ((indent ++ field.name ++ " " ++ sub_query) :: r.1, r.2)
        | none =>
          complex_priority_loop reg fuel depth visited clean_type indent rest
            added max_fields stale1
termination_by structural fuel => fuel

/-- Regular-complex loop of `build_query_body` (only for `Title` / `Name` at
depth below 3, over `regular_complex[:2]`); `stale` is the stale `field_type`
read by its `Connection` test. -/
def complex_regular_loop (reg : Registry) :
    Nat → Nat → List String → String → String → String → List FieldDescr → Nat → Nat →
    List String
  | 0, _, _, _, _, _, _, _, _ => []
  | fuel + 1, depth, visited, clean_type, indent, stale, fields, added, max_fields =>
    match fields with
    | [] => []
    | field :: rest =>
      if added ≥ max_fields then []
      else
        match build_validated_sub_query_improved reg fuel field depth visited clean_type with
        | some sub_query =>
          let line :=
            if pyIn "Connection" stale && !pyStartsWith (pyStrip sub_query) "(" then
              indent ++ field.name ++ "(first: 10) " ++ sub_query
            else indent ++ field.name ++ " " ++ sub_query
          line :: complex_regular_loop reg fuel depth visited clean_type indent stale rest
            (added + 1) max_fields
        | none =>
          complex_regular_loop reg fuel depth visited clean_type indent stale rest
            added max_fields
termination_by structural fuel => fuel

/-- `build_validated_sub_query_improved`: sub-query for a complex field;
`none` models Python `None` (field dropped by the caller). -/
def build_validated_sub_query_improved (reg : Registry) :
    Nat → FieldDescr → Nat → List String → String → Option String
  | 0, _, _, _, _ => none
  | fuel + 1, field, depth, visited_types, parent_type =>
    if !is_field_queryable field parent_type then none
    else if pyIn "Connection" field.type then
      some ("(first: 10) " ++
        build_validated_connection_query reg field.type (depth + 1) visited_types true)
    else if pyIn "Edge" field.type then
      some (build_validated_edge_query reg fuel field.type (depth + 1) visited_types)
    else
      match lookupType reg (clean_type_name field.type) with
      | none => some "\x7b id \x7d"
      | some _ =>
        if build_query_body reg fuel field.type (depth + 1) visited_types
             (some (max_sub_fields depth)) != "" &&
           pyStrip (build_query_body reg fuel field.type (depth + 1) visited_types
             (some (max_sub_fields depth))) != "" &&
           build_query_body reg fuel field.type (depth + 1) visited_types
             (some (max_sub_fields depth)) != "\x7b id \x7d" then
          some (build_query_body reg fuel field.type (depth + 1) visited_types
            (some (max_sub_fields depth)))
        else none
termination_by structural fuel => fuel

/-- `build_validated_edge_query`: node type obtained by deleting `Edge` from
the type name; the node body (when that name is known and non-minimal) is
spliced inside the fixed `node { id ... } cursor` scaffold. -/
def build_validated_edge_query (reg : Registry) :
    Nat → String → Nat → List String → String
  | 0, _, depth, _ => edge_scaffold depth ""
  | fuel + 1, edge_type, depth, visited_types =>
    edge_scaffold depth
      (match lookupType reg (removeEdgeAll edge_type) with
       | none => ""
       | some _ =>
         if build_query_body reg fuel (removeEdgeAll edge_type) (depth + 2)
              visited_types none != "" &&
            build_query_body reg fuel (removeEdgeAll edge_type) (depth + 2)
              visited_types none != "\x7b id \x7d" then
           if pyStartsWith (pyStrip (build_query_body reg fuel (removeEdgeAll edge_type)
                (depth + 2) visited_types none)) "\x7b" &&
              pyEndsWith (pyStrip (build_query_body reg fuel (removeEdgeAll edge_type)
                (depth + 2) visited_types none)) "\x7d" then
             if sliceInnerStrip (pyStrip (build_query_body reg fuel (removeEdgeAll edge_type)
                  (depth + 2) visited_types none)) != "" then
               "\n" ++ sliceInnerStrip (pyStrip (build_query_body reg fuel
                 (removeEdgeAll edge_type) (depth + 2) visited_types none))
             else ""
           else ""
         else "")
termination_by structural fuel => fuel

end

/-! ## Document-level generation -/

/-- `validate_generated_query`: basic syntax validation returning a verdict
and a message. -/
def validate_generated_query (reg : Registry) (query_string operation_name : String) :
    Bool × String :=
  if pyStrip query_string == "" then (false, "Empty query")
  else if !pyStartsWith query_string "query" then
    (false, "Query should start with 'query'")
  else
    let open_braces := query_string.toList.count '\x7b'
    let close_braces := query_string.toList.count '\x7d'
    if open_braces != close_braces then
      (false, "Unbalanced braces: " ++ toString open_braces ++ " open, " ++
        toString close_braces ++ " close")
    else
      match lookupType reg "Query" with
      | some qd =>
        if (qd.fields.map (fun f => f.name)).contains operation_name then (true, "Valid")
        else (false, "Operation '" ++ operation_name ++ "' not found in Query type")
      | none => (true, "Valid")

/-- `find_query_field_for_type`: a Query field returning the type (with an
`id` argument), else one named like the type. -/
def find_query_field_for_type (reg : Registry) (type_name : String) : Option String :=
  match lookupType reg "Query" with
  | none => none
  | some qd =>
    match qd.fields.find? (fun f =>
        clean_type_name f.type == type_name && f.args.any (fun a => a.name == "id")) with
    | some f => some f.name
    | none =>
      match qd.fields.find? (fun f =>
          (pyLower f.name == pyLower type_name || pyLower f.name == pyLower type_name ++ "s") &&
          f.args.any (fun a => a.name == "id")) with
      | some f => some f.name
      | none => none

/-- `validate_fields_against_schema`. -/
def validate_fields_against_schema (reg : Registry) (fields : List FieldDescr)
    (type_name : String) : List FieldDescr :=
  match lookupType reg type_name with
  | none => fields
  | some td =>
    let actual_fields := td.fields
    fields.filterMap (fun field =>
      if field.name == "" then none
      else
        match actual_fields.find? (fun f => f.name == field.name) with
        | none => none
        | some actual =>
          if (required_args actual).isEmpty then some actual else none)

/-- `get_valid_scalar_fields`. -/
def get_valid_scalar_fields (reg : Registry) (fields : List FieldDescr)
    (type_name : String) : List FieldDescr :=
  match lookupType reg type_name with
  | some td =>
    fields.filterMap (fun field =>
      match td.fields.find? (fun f => f.name == field.name) with
      | none => none
      | some actual =>
        if is_scalar_type_validated reg actual.type field.name type_name then some actual
        else none)
  | none =>
    fields.filter (fun field => is_scalar_type_validated reg field.type field.name type_name)

/-- `get_valid_complex_fields`. -/
def get_valid_complex_fields (reg : Registry) (fields : List FieldDescr)
    (type_name : String) (visited_types : List String) : List FieldDescr :=
  match lookupType reg type_name with
  | some td =>
    fields.filterMap (fun field =>
      match td.fields.find? (fun f => f.name == field.name) with
      | none => none
      | some actual =>
        if !is_scalar_type_validated reg actual.type field.name type_name then
          if !visited_types.contains (clean_type_name actual.type) &&
             (hasType reg (clean_type_name actual.type) ||
              pyIn "Connection" (clean_type_name actual.type) ||
              pyIn "Edge" (clean_type_name actual.type)) then
            some actual
          else none
        else none)
  | none =>
    fields.filter (fun field =>
      !is_scalar_type_validated reg field.type field.name type_name &&
      (!visited_types.contains (clean_type_name field.type) &&
       (hasType reg (clean_type_name field.type) ||
        pyIn "Connection" (clean_type_name field.type) ||
        pyIn "Edge" (clean_type_name field.type))))

/-- Field selection of `generate_example_query_for_type` (steps before the
query body is rendered). -/
def gen_type_selected_fields (reg : Registry) (type_name : String) (max_fields : Nat)
    (fields : List FieldDescr) : List FieldDescr :=
  let valid_fields := validate_fields_against_schema reg fields type_name
  let simple_fields0 := get_valid_scalar_fields reg valid_fields type_name
  let complex_fields := get_valid_complex_fields reg valid_fields type_name [type_name]
  let idSel := match simple_fields0.find? (fun f => f.name == "id") with
    | some idf => [idf]
    | none => []
  let simple_fields := if idSel.isEmpty then simple_fields0
    else simple_fields0.filter (fun f => f.name != "id")
  let ps := prioritize_scalar_fields simple_fields
  let pc := prioritize_complex_fields complex_fields type_name
  let remaining_slots := max_fields - idSel.length
  let priority_count := min (remaining_slots - 1) ps.1.length
  let sel1 := idSel ++ (if priority_count > 0 then ps.1.take priority_count else [])
  let remaining_slots2 := max_fields - sel1.length
  let sel2 := sel1 ++
    (if remaining_slots2 > 1 && !ps.2.isEmpty then
      ps.2.take (min (remaining_slots2 - 1) ps.2.length)
     else [])
  sel2 ++ (if sel2.length < max_fields && !pc.1.isEmpty then pc.1.take 1 else [])

/-- Per-field rendering loop of `generate_example_query_for_type`. -/
def gen_type_body_parts (reg : Registry) (fuel : Nat) (type_name : String)
    (selected : List FieldDescr) : List String :=
  selected.map (fun field =>
    if pyIn "Connection" field.type then
      "    " ++ field.name ++ " " ++
        build_validated_connection_query reg field.type 1 [type_name] true
    else if is_scalar_type_validated reg field.type field.name type_name then
      "    " ++ field.name
    else
      if build_query_body reg fuel field.type 1 [type_name] (some 5) != "" &&
         build_query_body reg fuel field.type 1 [type_name] (some 5) != "\x7b id \x7d" then
        "    " ++ field.name ++ " " ++
          build_query_body reg fuel field.type 1 [type_name] (some 5)
      else "    " ++ field.name)

/-- The document assembled by `generate_example_query_for_type` before the
final validation step. -/
def gen_type_final_query (reg : Registry) (fuel : Nat) (type_name entity_id : String)
    (max_fields : Nat) (fields : List FieldDescr) : String :=
  let selected := gen_type_selected_fields reg type_name max_fields fields
  let query_body_parts := gen_type_body_parts reg fuel type_name selected
  let headline :=
    match find_query_field_for_type reg type_name with
    | some query_field => "  " ++ query_field ++ "(id: \"" ++ entity_id ++ "\") \x7b"
    | none => "  " ++ pyLower type_name ++ "(id: \"" ++ entity_id ++ "\") \x7b"
  pyJoin "\n" ((("query Get" ++ type_name ++ " \x7b") :: headline :: query_body_parts) ++
    ["  \x7d", "\x7d"])

/-- `generate_example_query_for_type`: returns the (optional) document and
whether the validation-failure warning was printed.  A `False` validation
verdict never changes the returned document. -/
def generate_example_query_for_type (reg : Registry) (fuel : Nat)
    (type_name entity_id : String) (max_fields : Nat := 5) : Option String × Bool :=
  match lookupType reg type_name with
  | none => (none, false)
  | some type_data =>
    if type_data.fields.isEmpty then (none, false)
    else
      let final_query := gen_type_final_query reg fuel type_name entity_id max_fields
        type_data.fields
      let operation := (find_query_field_for_type reg type_name).getD (pyLower type_name)
      (some final_query, !(validate_generated_query reg final_query operation).1)

/-- One iteration of the argument loop of
`generate_example_query_for_operation`: the `(arg: $var)` piece this argument
contributes, if any.  The loop appends at most one piece per argument, so the
accumulated `query_args` list is exactly the `filterMap` of this renderer. -/
def gen_op_render_arg (arg : ArgDescr) : Option String :=
  if pyIn "constraint" (pyLower arg.name) then some (arg.name ++ ": $constraints")
  else if arg.name == "first" || arg.name == "limit" then some (arg.name ++ ": $first")
  else if arg.name == "after" || arg.name == "before" then some (arg.name ++ ": $after")
  else if pyIn "sort" (pyLower arg.name) then some (arg.name ++ ": $sort")
  else none

def gen_op_query_args (args : List ArgDescr) : List String :=
  args.filterMap gen_op_render_arg

/-- Whether the loop set `variables['constraints']` / `['first']` / `['after']`
/ `['sort']` for some argument (the branch conditions mirror the `if`/`elif`
chain). -/
def gen_op_has_constraints (args : List ArgDescr) : Bool :=
  args.any (fun a => pyIn "constraint" (pyLower a.name))

def gen_op_has_first (args : List ArgDescr) : Bool :=
  args.any (fun a => !pyIn "constraint" (pyLower a.name) &&
    (a.name == "first" || a.name == "limit"))

def gen_op_has_after (args : List ArgDescr) : Bool :=
  args.any (fun a => !pyIn "constraint" (pyLower a.name) &&
    !(a.name == "first" || a.name == "limit") &&
    (a.name == "after" || a.name == "before"))

def gen_op_has_sort (args : List ArgDescr) : Bool :=
  args.any (fun a => !pyIn "constraint" (pyLower a.name) &&
    !(a.name == "first" || a.name == "limit") &&
    !(a.name == "after" || a.name == "before") &&
    pyIn "sort" (pyLower a.name))

/-- Variable-definition list of `generate_example_query_for_operation`. -/
def gen_op_var_definitions (args : List ArgDescr)
    (hasConstraints hasFirst hasAfter hasSort : Bool) : List String :=
  args.filterMap (fun arg =>
    if arg.name == "constraints" && hasConstraints then
      some ("$constraints: " ++ strip_bang arg.type)
    else if arg.name == "first" && hasFirst then some ("$first: " ++ arg.type)
    else if arg.name == "after" && hasAfter then some ("$after: " ++ arg.type)
    else if pyIn "sort" (pyLower arg.name) && hasSort then
      some ("$sort: " ++ strip_bang arg.type)
    else none)

/-- `generate_example_query_for_operation`, restricted to the `query` entry of
the returned dict (the `variables` / `constraint_details` entries do not
contribute to the document string). -/
def generate_example_query_for_operation (reg : Registry) (fuel : Nat)
    (operation_name search_term : String) : Option String :=
  match lookupType reg "Query" with
  | none => none
  | some qd =>
    match qd.fields.find? (fun f => f.name == operation_name) with
    | none => none
    | some operation_field =>
      let args := operation_field.args
      let query_args := gen_op_query_args args
      let query_body := build_query_body reg fuel operation_field.type 0 [] none
      let var_definitions := gen_op_var_definitions args (gen_op_has_constraints args)
        (gen_op_has_first args) (gen_op_has_after args) (gen_op_has_sort args)
      let args_string := if !query_args.isEmpty then "(" ++ pyJoin ", " query_args ++ ")"
        else ""
      let var_def_string :=
        if !var_definitions.isEmpty then "(" ++ pyJoin ", " var_definitions ++ ")" else ""
      some ("query " ++ pyCapitalize operation_name ++ "Example" ++ var_def_string ++
        " \x7b\n  " ++ operation_name ++ args_string ++ " " ++ query_body ++ "\n\x7d")

/-! ## The crawler (`fetch_introspection_data`).
The rate-limited HTTP transport is an oracle `String → Option RawTypeData`
(`none`: transport failure, non-2xx status, exception, or a missing `__type`
result — all are handled identically apart from logging).  The crawl state
records the `introspected_types` set, the sequence of issued introspection
requests, and the registry. -/

structure RawFieldData where
  name : String
  description : String
  type : Option RawTypeRef
  args : List (String × String × Option RawTypeRef × String)

structure RawTypeData where
  name : String
  description : String
  kind : String
  fields : List RawFieldData
  inputFields : List RawFieldData

structure CrawlState where
  introspected_types : List String
  requestLog : List String
  data : Registry

def builtin_scalars : List String := ["String", "Int", "Float", "Boolean", "ID"]

/-- `type_name.startswith('__')`. -/
def is_meta_name (s : String) : Bool := pyStartsWith s "__"

def constraint_keywords : List String := ["Constraint", "Search", "Sort", "Filter", "Input"]

def important_type_names : List String := ["Name", "Title", "NameText", "TitleText"]

/-- Field processing of a successful introspection response: flatten every
field / argument type reference with `get_type_string`. -/
def process_raw_field (f : RawFieldData) : FieldDescr :=
  { name := f.name
    type := get_type_string f.type
    description := f.description
    args := f.args.map (fun a =>
      { name := a.1, type := get_type_string a.2.2.1, description := a.2.1,
        defaultValue := a.2.2.2 }) }

/-- Bucket classification of the not-yet-known referenced types (constraint,
important, connection, other), in sorted iteration order. -/
def categorize_related (intro : List String) (names : List String) :
    List String × List String × List String × List String :=
  names.foldl (fun acc t =>
    if intro.contains t then acc
    else if constraint_keywords.any (fun kw => pyIn kw t) then
      (acc.1 ++ [t], acc.2.1, acc.2.2.1, acc.2.2.2)
    else if important_type_names.contains t then
      (acc.1, acc.2.1 ++ [t], acc.2.2.1, acc.2.2.2)
    else if pyIn "Connection" t then
      (acc.1, acc.2.1, acc.2.2.1 ++ [t], acc.2.2.2)
    else (acc.1, acc.2.1, acc.2.2.1, acc.2.2.2 ++ [t]))
    ([], [], [], [])

mutual

/-- `fetch_introspection_data`, fuel-indexed (running out of fuel leaves the
state unchanged; every claim about the crawler is proved for all fuels). -/
def fetch_introspection_data (oracle : String → Option RawTypeData) :
    Nat → String → Nat → CrawlState → CrawlState
  | 0, _, _, st => st
  | fuel + 1, type_name, depth, st =>
    if st.introspected_types.contains type_name then st
    else if is_meta_name type_name || builtin_scalars.contains type_name then st
    else
      let st1 : CrawlState :=
        { st with introspected_types := st.introspected_types ++ [type_name] }
      let st2 : CrawlState := { st1 with requestLog := st1.requestLog ++ [type_name] }
      match oracle type_name with
      | none => st2
      | some type_data =>
        let all_fields := type_data.fields ++ type_data.inputFields
        let processed_fields := all_fields.map process_raw_field
        let related_types := all_fields.flatMap (fun f => extract_type_names f.type)
        let argument_types := all_fields.flatMap (fun f =>
          f.args.flatMap (fun a => extract_type_names a.2.2.1))
        let all_related_types := sortedSet (related_types ++ argument_types)
        let entry : TypeEntry :=
          { name := type_name
            description := type_data.description
            kind := type_data.kind
            depth := depth
            fields := processed_fields
            related_types := sortedSet related_types
            argument_types := sortedSet argument_types
            all_related_types := all_related_types
            field_count := all_fields.length }
        let st3 : CrawlState := { st2 with data := st2.data ++ [(type_name, entry)] }
        let st4 :=
          if type_name == "Query" && !(sortedSet argument_types).isEmpty then
            fetch_constraint_list oracle fuel
              ((sortedSet argument_types).filter
                (fun t => constraint_keywords.any (fun kw => pyIn kw t)))
              (depth + 1) st3
          else st3
        if depth < 5 then
          let buckets := categorize_related st4.introspected_types all_related_types
          let priority_order := buckets.1 ++ buckets.2.1 ++ buckets.2.2.1.take 3 ++
            buckets.2.2.2.take 2
          fetch_related_list oracle fuel priority_order (depth + 1) st4
        else st4
termination_by structural fuel => fuel

/-- The constraint-type loop inside `fetch_introspection_data` for the Query
type. -/
def fetch_constraint_list (oracle : String → Option RawTypeData) :
    Nat → List String → Nat → CrawlState → CrawlState
  | 0, _, _, st => st
  | fuel + 1, names, depth, st =>
    match names with
    | [] => st
    | n :: rest =>
      let st' := if st.introspected_types.contains n then st
        else fetch_introspection_data oracle fuel n depth st
      fetch_constraint_list oracle fuel rest depth st'
termination_by structural fuel => fuel

/-- The priority-ordered related-type loop inside `fetch_introspection_data`
(with its extra non-empty-name test). -/
def fetch_related_list (oracle : String → Option RawTypeData) :
    Nat → List String → Nat → CrawlState → CrawlState
  | 0, _, _, st => st
  | fuel + 1, names, depth, st =>
    match names with
    | [] => st
    | n :: rest =>
      let st' := if n != "" && !st.introspected_types.contains n then
        fetch_introspection_data oracle fuel n depth st
        else st
      fetch_related_list oracle fuel rest depth st'
termination_by structural fuel => fuel

end


/-! ## Brace counting and balance -/

/-- Number of occurrences of a character in a string. -/
def cnt (c : Char) (s : String) : Nat := s.toList.count c

/-- The balanced-braces output invariant of the spec. -/
def balancedBraces (s : String) : Prop := cnt '\x7b' s = cnt '\x7d' s

/-- Strings with no brace character at all. -/
def braceFree (s : String) : Prop := ∀ c ∈ s.toList, c ≠ '\x7b' ∧ c ≠ '\x7d'

instance (s : String) : Decidable (balancedBraces s) := by
  unfold balancedBraces; infer_instance

instance (s : String) : Decidable (braceFree s) := by
  unfold braceFree; infer_instance

theorem cnt_append (c : Char) (s t : String) : cnt c (s ++ t) = cnt c s + cnt c t := by
  simp [cnt, String.toList, String.data_append, List.count_append]

theorem cnt_ob_eq_zero (s : String) (h : braceFree s) : cnt '\x7b' s = 0 :=
  List.count_eq_zero.mpr (fun hm => (h _ hm).1 rfl)

theorem cnt_cb_eq_zero (s : String) (h : braceFree s) : cnt '\x7d' s = 0 :=
  List.count_eq_zero.mpr (fun hm => (h _ hm).2 rfl)

theorem balanced_of_braceFree (s : String) (h : braceFree s) : balancedBraces s := by
  rw [balancedBraces, cnt_ob_eq_zero s h, cnt_cb_eq_zero s h]

theorem balancedBraces_append (s t : String) (hs : balancedBraces s)
    (ht : balancedBraces t) : balancedBraces (s ++ t) := by
  rw [balancedBraces, cnt_append, cnt_append, hs, ht]

theorem braceFree_append (s t : String) (hs : braceFree s) (ht : braceFree t) :
    braceFree (s ++ t) := by
  intro c hc
  rw [string_toList_append, List.mem_append] at hc
  rcases hc with h | h
  · exact hs c h
  · exact ht c h

theorem braceFree_pyIndent (k : Nat) : braceFree (pyIndent k) := by
  intro c hc
  have : c = ' ' := List.eq_of_mem_replicate hc
  subst this
  exact ⟨by decide, by decide⟩

theorem cnt_pyIndent_ob (k : Nat) : cnt '\x7b' (pyIndent k) = 0 :=
  cnt_ob_eq_zero _ (braceFree_pyIndent k)

theorem cnt_pyIndent_cb (k : Nat) : cnt '\x7d' (pyIndent k) = 0 :=
  cnt_cb_eq_zero _ (braceFree_pyIndent k)

theorem cnt_pyJoin (c : Char) (sep : String) (hsep : cnt c sep = 0) :
    ∀ l : List String, cnt c (pyJoin sep l) = (l.map (cnt c)).sum
  | [] => by simp [pyJoin, cnt]
  | [x] => by simp [pyJoin]
  | x :: y :: rest => by
    have ih := cnt_pyJoin c sep hsep (y :: rest)
    simp [pyJoin, cnt_append, hsep, ih]

theorem sum_map_cnt_eq (l : List String) (h : ∀ s ∈ l, balancedBraces s) :
    (l.map (cnt '\x7b')).sum = (l.map (cnt '\x7d')).sum := by
  induction l with
  | nil => rfl
  | cons x xs ih =>
    simp only [List.map_cons, List.sum_cons]
    rw [h x (List.mem_cons_self x xs), ih (fun s hs => h s (List.mem_cons_of_mem x hs))]

theorem balanced_pyJoin (l : List String) (h : ∀ s ∈ l, balancedBraces s) :
    balancedBraces (pyJoin "\n" l) := by
  rw [balancedBraces, cnt_pyJoin _ _ (by decide), cnt_pyJoin _ _ (by decide)]
  exact sum_map_cnt_eq l h

theorem balanced_braces_block (ind : String) (lines : List String)
    (hind : braceFree ind) (h : ∀ s ∈ lines, balancedBraces s) :
    balancedBraces (braces_block ind lines) := by
  have hj := balanced_pyJoin lines h
  rw [balancedBraces] at hj ⊢
  rw [braces_block]
  simp only [cnt_append, cnt_ob_eq_zero ind hind, cnt_cb_eq_zero ind hind, hj]
  have e1 : cnt '\x7b' "\x7b\n" = 1 := by decide
  have e2 : cnt '\x7d' "\x7b\n" = 0 := by decide
  have e3 : cnt '\x7b' "\n" = 0 := by decide
  have e4 : cnt '\x7d' "\n" = 0 := by decide
  have e5 : cnt '\x7b' "\x7d" = 0 := by decide
  have e6 : cnt '\x7d' "\x7d" = 1 := by decide
  omega

theorem cnt_connection_pre_ob (d : Nat) : cnt '\x7b' (connection_scaffold_pre d) = 2 := by
  simp only [connection_scaffold_pre, cnt_append, cnt_pyIndent_ob]
  decide

theorem cnt_connection_pre_cb (d : Nat) : cnt '\x7d' (connection_scaffold_pre d) = 0 := by
  simp only [connection_scaffold_pre, cnt_append, cnt_pyIndent_cb]
  decide

theorem cnt_connection_post_ob (d : Nat) : cnt '\x7b' (connection_scaffold_post d) = 1 := by
  simp only [connection_scaffold_post, cnt_append, cnt_pyIndent_ob]
  decide

theorem cnt_connection_post_cb (d : Nat) : cnt '\x7d' (connection_scaffold_post d) = 3 := by
  simp only [connection_scaffold_post, cnt_append, cnt_pyIndent_cb]
  decide

theorem balanced_connection_scaffold (d : Nat) (nq : String) (h : balancedBraces nq) :
    balancedBraces (connection_scaffold d nq) := by
  rw [balancedBraces, connection_scaffold]
  simp only [cnt_append, cnt_connection_pre_ob, cnt_connection_pre_cb,
    cnt_connection_post_ob, cnt_connection_post_cb]
  rw [balancedBraces] at h
  omega

theorem balanced_id_only_node_query (d : Nat) : balancedBraces (id_only_node_query d) := by
  rw [balancedBraces, id_only_node_query]
  simp only [cnt_append, cnt_pyIndent_ob, cnt_pyIndent_cb]
  decide

theorem balanced_generic_connection (t : String) (d : Nat) (v : List String) :
    balancedBraces (build_generic_connection_query t d v) :=
  balanced_connection_scaffold d _ (balanced_id_only_node_query d)

theorem balanced_simple_connection (d : Nat) :
    balancedBraces (build_simple_connection_with_id_only d) :=
  balanced_connection_scaffold d _ (balanced_id_only_node_query d)

theorem cnt_edge_pre_ob (d : Nat) : cnt '\x7b' (edge_scaffold_pre d) = 2 := by
  simp only [edge_scaffold_pre, cnt_append, cnt_pyIndent_ob]
  decide

theorem cnt_edge_pre_cb (d : Nat) : cnt '\x7d' (edge_scaffold_pre d) = 0 := by
  simp only [edge_scaffold_pre, cnt_append, cnt_pyIndent_cb]
  decide

theorem cnt_edge_post_ob (d : Nat) : cnt '\x7b' (edge_scaffold_post d) = 0 := by
  simp only [edge_scaffold_post, cnt_append, cnt_pyIndent_ob]
  decide

theorem cnt_edge_post_cb (d : Nat) : cnt '\x7d' (edge_scaffold_post d) = 2 := by
  simp only [edge_scaffold_post, cnt_append, cnt_pyIndent_cb]
  decide

theorem balanced_edge_scaffold (d : Nat) (mid : String) (h : balancedBraces mid) :
    balancedBraces (edge_scaffold d mid) := by
  rw [balancedBraces, edge_scaffold]
  simp only [cnt_append, cnt_edge_pre_ob, cnt_edge_pre_cb, cnt_edge_post_ob,
    cnt_edge_post_cb]
  rw [balancedBraces] at h
  omega

/-! ## Registries with brace-free GraphQL names (the well-formedness
assumption under which the balanced-output invariant is proved: GraphQL type,
field and argument names never contain a brace). -/

def cleanEntry (e : TypeEntry) : Prop :=
  ∀ f ∈ e.fields, braceFree f.name ∧ ∀ a ∈ f.args, braceFree a.name ∧ braceFree a.type

def cleanRegistry (reg : Registry) : Prop := ∀ p ∈ reg, braceFree p.1 ∧ cleanEntry p.2

theorem lookup_clean (reg : Registry) (n : String) (td : TypeEntry)
    (hreg : cleanRegistry reg) (h : lookupType reg n = some td) :
    braceFree n ∧ cleanEntry td := by
  rw [lookupType] at h
  cases hf : reg.find? (fun p => p.1 == n) with
  | none => rw [hf] at h; cases h
  | some p =>
    rw [hf] at h
    have hmem := List.mem_of_find?_eq_some hf
    have hbeq := List.find?_some hf
    have heq : p.1 = n := by
      have := of_decide_eq_true (by exact hbeq)
      exact this
    cases h
    have hp := hreg p hmem
    rw [heq] at hp
    exact hp

/-- Anything that comes out of the shared `queryable`/`verified` filters was a
field of the original list. -/
theorem mem_of_queryable (fields : List FieldDescr) (f : FieldDescr)
    (h : f ∈ queryable_fields fields) : f ∈ fields :=
  List.mem_of_mem_filter h

theorem mem_of_verified (reg : Registry) (tn : String) (l : List FieldDescr)
    (f : FieldDescr) (h : f ∈ verified_fields reg tn l) : f ∈ l :=
  List.mem_of_mem_filter h

theorem mem_of_prioritize_scalar_fst (l : List FieldDescr) (f : FieldDescr)
    (h : f ∈ (prioritize_scalar_fields l).1) : f ∈ l := by
  rw [prioritize_scalar_fields, List.partition_eq_filter_filter] at h
  exact List.mem_of_mem_filter h

theorem mem_of_prioritize_scalar_snd (l : List FieldDescr) (f : FieldDescr)
    (h : f ∈ (prioritize_scalar_fields l).2) : f ∈ l := by
  rw [prioritize_scalar_fields, List.partition_eq_filter_filter] at h
  exact List.mem_of_mem_filter h

theorem mem_of_prioritize_complex_fst (l : List FieldDescr) (tn : String) (f : FieldDescr)
    (h : f ∈ (prioritize_complex_fields l tn).1) : f ∈ l := by
  rw [prioritize_complex_fields, List.partition_eq_filter_filter] at h
  exact List.mem_of_mem_filter h

theorem mem_of_prioritize_complex_snd (l : List FieldDescr) (tn : String) (f : FieldDescr)
    (h : f ∈ (prioritize_complex_fields l tn).2) : f ∈ l := by
  rw [prioritize_complex_fields, List.partition_eq_filter_filter] at h
  exact List.mem_of_mem_filter h


theorem head?_mem (l : List α) (a : α) (h : l.head? = some a) : a ∈ l := by
  cases l with
  | nil => cases h
  | cons y ys =>
    injection h with h
    subst h
    exact List.mem_cons_self _ _

theorem ultra_safe_scalar_loop_mem (reg : Registry) (tn ind : String) :
    ∀ (fields : List FieldDescr) (n : Nat) (line : String),
      line ∈ ultra_safe_scalar_loop reg tn ind fields n →
      ∃ f ∈ fields, line = ind ++ f.name := by
  intro fields
  induction fields with
  | nil => intro n line h; simp [ultra_safe_scalar_loop] at h
  | cons f rest ih =>
    intro n line h
    rw [ultra_safe_scalar_loop] at h
    split at h
    · simp at h
    · split at h
      · rcases List.mem_cons.mp h with h1 | h1
        · exact ⟨f, List.mem_cons_self f rest, h1⟩
        · rcases ih _ _ h1 with ⟨g, hg, hline⟩
          exact ⟨g, List.mem_cons_of_mem f hg, hline⟩
      · rcases ih _ _ h with ⟨g, hg, hline⟩
        exact ⟨g, List.mem_cons_of_mem f hg, hline⟩

theorem braceFree_line_of_field (ind nm : String) (hind : braceFree ind)
    (hnm : braceFree nm) : balancedBraces (ind ++ nm) :=
  balanced_of_braceFree _ (braceFree_append _ _ hind hnm)

/-- The shared `{ id }`-fallback-or-body pattern at the end of the object-body
builders. -/
theorem balanced_sel_block (ind : String) (lines : List String) (hind : braceFree ind)
    (h : ∀ s ∈ lines, balancedBraces s) :
    balancedBraces (if lines.isEmpty then "\x7b id \x7d" else braces_block ind lines) := by
  split
  · decide
  · exact balanced_braces_block ind lines hind h

theorem balanced_ultra_safe (reg : Registry) (tn : String) (d : Nat)
    (hreg : cleanRegistry reg) :
    balancedBraces (build_ultra_safe_object_query reg tn d) := by
  unfold build_ultra_safe_object_query
  split
  · decide
  next td hl =>
    have hclean := (lookup_clean reg tn td hreg hl).2
    simp only []
    split
    · decide
    · refine balanced_sel_block _ _ (braceFree_pyIndent d) ?_
      intro s hs
      rcases List.mem_append.mp hs with h | h
      · split at h
        · rcases List.mem_singleton.mp h with rfl
          exact braceFree_line_of_field _ _ (braceFree_pyIndent (d + 1)) (by decide)
        · simp at h
      · rcases ultra_safe_scalar_loop_mem reg tn _ _ _ _ h with ⟨f, hf, rfl⟩
        exact braceFree_line_of_field _ _ (braceFree_pyIndent (d + 1)) (hclean f hf).1


theorem connection_scalar_loop_mem (reg : Registry) (nt ni : String) (mx : Nat) :
    ∀ (fields : List FieldDescr) (n : Nat) (line : String),
      line ∈ (connection_scalar_loop reg nt ni mx fields n).1 →
      ∃ f ∈ fields, line = ni ++ f.name := by
  intro fields
  induction fields with
  | nil => intro n line h; simp [connection_scalar_loop] at h
  | cons f rest ih =>
    intro n line h
    rw [connection_scalar_loop] at h
    split at h
    · simp at h
    · split at h
      · rcases List.mem_cons.mp h with h1 | h1
        · exact ⟨f, List.mem_cons_self f rest, h1⟩
        · rcases ih _ _ h1 with ⟨g, hg, hline⟩
          exact ⟨g, List.mem_cons_of_mem f hg, hline⟩
      · rcases ih _ _ h with ⟨g, hg, hline⟩
        exact ⟨g, List.mem_cons_of_mem f hg, hline⟩

theorem connection_fallback_mem (reg : Registry) (nt ni : String) (d fa : Nat)
    (flds : List FieldDescr) (line : String)
    (h : line ∈ connection_fallback_complex reg nt ni d fa flds) :
    ∃ f ∈ flds, line = ni ++ f.name ++ " " ++
      build_ultra_safe_object_query reg (clean_type_name f.type) (d + 2) := by
  rw [connection_fallback_complex] at h
  split at h
  · split at h
    · simp at h
    next field heq =>
      split at h
      · split at h
        · rcases List.mem_singleton.mp h with rfl
          exact ⟨field, head?_mem _ _ heq, rfl⟩
        · simp at h
      · simp at h
  · simp at h

theorem connection_safe_mem (reg : Registry) (nt ni : String) (d fa mx : Nat)
    (lim : Bool) (flds : List FieldDescr) (line : String)
    (h : line ∈ connection_safe_complex reg nt ni d fa mx lim flds) :
    ∃ f ∈ flds, line = ni ++ f.name ++ " " ++
      build_ultra_safe_object_query reg (clean_type_name f.type) (d + 2) := by
  rw [connection_safe_complex] at h
  split at h
  · split at h
    · simp at h
    next field heq =>
      split at h
      · split at h
        · rcases List.mem_singleton.mp h with rfl
          exact ⟨field, mem_of_prioritize_complex_fst _ _ _ (head?_mem _ _ heq), rfl⟩
        · simp at h
      · simp at h
  · simp at h

/-- A `node_indent ++ name ++ " " ++ sub` line is balanced when the sub-query
is. -/
theorem balanced_sub_line (ind nm sub : String) (hind : braceFree ind)
    (hnm : braceFree nm) (hsub : balancedBraces sub) :
    balancedBraces (ind ++ nm ++ " " ++ sub) := by
  apply balancedBraces_append _ _ _ hsub
  apply balanced_of_braceFree
  exact braceFree_append _ _ (braceFree_append _ _ hind hnm) (by decide)

theorem balanced_validated_connection (reg : Registry) (ct : String) (d : Nat)
    (v : List String) (lim : Bool) (hreg : cleanRegistry reg) :
    balancedBraces (build_validated_connection_query reg ct d v lim) := by
  unfold build_validated_connection_query
  split
  · exact balanced_generic_connection _ _ _
  · split
    · exact balanced_generic_connection _ _ _
    next nt hdet =>
      split
      · exact balanced_generic_connection _ _ _
      next nd hnd =>
        have hclean := (lookup_clean reg nt nd hreg hnd).2
        split
        · exact balanced_simple_connection d
        · apply balanced_connection_scaffold
          apply balanced_braces_block _ _ (braceFree_pyIndent (d + 3))
          intro s hs
          have hfield : ∀ f : FieldDescr,
              f ∈ verified_fields reg nt (queryable_fields nd.fields) → braceFree f.name :=
            fun f hf =>
              (hclean f (mem_of_queryable _ _ (mem_of_verified _ _ _ _ hf))).1
          rcases List.mem_append.mp hs with h3 | hsc
          rotate_left
          · rcases connection_safe_mem _ _ _ _ _ _ _ _ _ hsc with ⟨f, hf, rfl⟩
            apply balanced_sub_line _ _ _ (braceFree_pyIndent (d + 3))
            · exact hfield f (List.mem_of_mem_filter hf)
            · exact balanced_ultra_safe reg _ _ hreg
          rcases List.mem_append.mp h3 with h2 | hfb
          rotate_left
          · rcases connection_fallback_mem _ _ _ _ _ _ _ hfb with ⟨f, hf, rfl⟩
            apply balanced_sub_line _ _ _ (braceFree_pyIndent (d + 3))
            · exact hfield f (List.mem_of_mem_filter hf)
            · exact balanced_ultra_safe reg _ _ hreg
          rcases List.mem_append.mp h2 with hid | hscalar
          · split at hid
            · rcases List.mem_singleton.mp hid with rfl
              exact braceFree_line_of_field _ _ (braceFree_pyIndent (d + 3)) (by decide)
            · simp at hid
          · rcases connection_scalar_loop_mem reg nt _ _ _ _ _ hscalar with ⟨f, hf, rfl⟩
            have hf1 := List.mem_of_mem_take hf
            have hf2 := mem_of_prioritize_scalar_fst _ _ hf1
            have hf3 : braceFree f.name :=
              hfield f (List.mem_of_mem_filter hf2)
            exact braceFree_line_of_field _ _ (braceFree_pyIndent (d + 3)) hf3


theorem count_dropWhile_ws (c : Char) (hc : c.isWhitespace = false) (l : List Char) :
    (l.dropWhile Char.isWhitespace).count c = l.count c := by
  conv_rhs => rw [← List.takeWhile_append_dropWhile Char.isWhitespace l]
  rw [List.count_append]
  have : (l.takeWhile Char.isWhitespace).count c = 0 := by
    apply List.count_eq_zero.mpr
    intro hmem
    rw [List.mem_takeWhile_imp hmem] at hc
    cases hc
  omega

theorem cnt_pyStrip (c : Char) (hc : c.isWhitespace = false) (s : String) :
    cnt c (pyStrip s) = cnt c s := by
  show (((s.toList.dropWhile Char.isWhitespace).reverse.dropWhile
      Char.isWhitespace).reverse).count c = s.toList.count c
  rw [List.count_reverse, count_dropWhile_ws c hc, List.count_reverse,
    count_dropWhile_ws c hc]

theorem balanced_pyStrip (s : String) (h : balancedBraces s) :
    balancedBraces (pyStrip s) := by
  rw [balancedBraces, cnt_pyStrip _ (by decide), cnt_pyStrip _ (by decide)]
  exact h

/-- Stripping the outer braces of a balanced `{ ... }` body leaves a balanced
inner content. -/
theorem balanced_sliceInnerStrip (t : String) (hbal : balancedBraces t)
    (h1 : pyStartsWith t "\x7b" = true) (h2 : pyEndsWith t "\x7d" = true) :
    balancedBraces (sliceInnerStrip t) := by
  rw [pyStartsWith, List.isPrefixOf_iff_prefix] at h1
  rw [pyEndsWith, List.isSuffixOf_iff_suffix] at h2
  rcases h1 with ⟨rest, hrest⟩
  rcases h2 with ⟨u, hu⟩
  have hrest' : t.toList = '\x7b' :: rest := by
    rw [← hrest]; rfl
  cases u with
  | nil =>
    rw [hrest'] at hu
    simp at hu
  | cons a u' =>
    have ha : a = '\x7b' ∧ u' ++ ['\x7d'] = rest := by
      rw [hrest'] at hu
      have : a :: (u' ++ ['\x7d']) = '\x7b' :: rest := hu
      exact ⟨(List.cons.injEq _ _ _ _ ▸ this).1, (List.cons.injEq _ _ _ _ ▸ this).2⟩
    have hinner : (t.toList.drop 1).dropLast = u' := by
      rw [hrest', ← ha.2]
      simp [List.dropLast_concat]
    have hcount : u'.count '\x7b' = u'.count '\x7d' := by
      have hob : t.toList.count '\x7b' = 1 + u'.count '\x7b' := by
        rw [hrest', ← ha.2]
        simp [List.count_append, List.count_cons]
        omega
      have hcb : t.toList.count '\x7d' = 1 + u'.count '\x7d' := by
        rw [hrest', ← ha.2]
        simp [List.count_append, List.count_cons]
        omega
      rw [balancedBraces, cnt, cnt] at hbal
      omega
    rw [sliceInnerStrip, balancedBraces, cnt_pyStrip _ (by decide),
      cnt_pyStrip _ (by decide)]
    show (String.mk ((t.toList.drop 1).dropLast)).toList.count '\x7b'
        = (String.mk ((t.toList.drop 1).dropLast)).toList.count '\x7d'
    rw [hinner]
    exact hcount

theorem scalar_budget_lines_mem (ind : String) (fields : List FieldDescr)
    (limit added : Nat) (line : String)
    (h : line ∈ scalar_budget_lines ind fields limit added) :
    ∃ f ∈ fields, line = ind ++ f.name := by
  rw [scalar_budget_lines] at h
  rcases List.mem_map.mp h with ⟨f, hf, rfl⟩
  exact ⟨f, List.mem_of_mem_take hf, rfl⟩


/-- Balance of every string produced by the recursive synthesizer, at every
fuel (the script's own recursion is depth-bounded, see `build_query_body`). -/
theorem synth_balanced (reg : Registry) (hreg : cleanRegistry reg) : ∀ fuel : Nat,
    (∀ rt d v m, balancedBraces (build_query_body reg fuel rt d v m)) ∧
    (∀ ct d v m td, cleanEntry td →
      balancedBraces (build_object_body reg fuel ct d v m td)) ∧
    (∀ fld d v p s, build_validated_sub_query_improved reg fuel fld d v p = some s →
      balancedBraces s) ∧
    (∀ e d v, balancedBraces (build_validated_edge_query reg fuel e d v)) ∧
    (∀ d v ct ind flds a mf st, braceFree ind → (∀ f ∈ flds, braceFree f.name) →
      ∀ line ∈ (complex_priority_loop reg fuel d v ct ind flds a mf st).1,
        balancedBraces line) ∧
    (∀ d v ct ind st flds a mf, braceFree ind → (∀ f ∈ flds, braceFree f.name) →
      ∀ line ∈ complex_regular_loop reg fuel d v ct ind st flds a mf,
        balancedBraces line) := by
  intro fuel
  induction fuel with
  | zero =>
    refine ⟨?_, ?_, ?_, ?_, ?_, ?_⟩
    · intro rt d v m
      exact (by decide : balancedBraces "\x7b id \x7d")
    · intro ct d v m td _
      exact (by decide : balancedBraces "\x7b id \x7d")
    · intro fld d v p s h
      cases h
    · intro e d v
      exact balanced_edge_scaffold d "" (by decide)
    · intro d v ct ind flds a mf st _ _ line hline
      simp [complex_priority_loop] at hline
    · intro d v ct ind st flds a mf _ _ line hline
      simp [complex_regular_loop] at hline
  | succ f ih =>
    obtain ⟨ihB, ihO, ihS, ihE, ihP, ihR⟩ := ih
    refine ⟨?_, ?_, ?_, ?_, ?_, ?_⟩
    · -- build_query_body
      intro rt d v m
      rw [build_query_body]
      split
      · decide
      · simp only []
        split
        · decide
        · split
          · exact balanced_validated_connection reg _ _ _ _ hreg
          · split
            · exact ihE _ _ _
            · split
              · decide
              next td heq =>
                split
                · decide
                · split
                  · decide
                  · split
                    · decide
                    · exact ihO _ _ _ _ _ (lookup_clean reg _ td hreg heq).2
    · -- build_object_body
      intro ct d v m td hclean
      rw [build_object_body]
      have hfieldbf : ∀ g : FieldDescr,
          g ∈ verified_fields reg ct (queryable_fields td.fields) → braceFree g.name :=
        fun g hg =>
          (hclean g (mem_of_queryable _ _ (mem_of_verified _ _ _ _ hg))).1
      refine balanced_sel_block _ _ (braceFree_pyIndent d) ?_
      intro s hs
      rcases List.mem_append.mp hs with h4 | hrc
      rotate_left
      · -- regular complex lines
        split at hrc
        · refine ihR _ _ _ _ _ _ _ _
            (braceFree_pyIndent (d + 1)) ?_ s hrc
          intro g hg
          exact hfieldbf g (List.mem_of_mem_filter
            (mem_of_prioritize_complex_snd _ _ _
              (List.mem_of_mem_take hg)))
        · simp at hrc
      rcases List.mem_append.mp h4 with h3 | hpc
      rotate_left
      · -- priority complex lines
        refine ihP _ _ _ _ _ _ _ _
          (braceFree_pyIndent (d + 1)) ?_ s hpc
        intro g hg
        exact hfieldbf g (List.mem_of_mem_filter
          (mem_of_prioritize_complex_fst _ _ _ hg))
      rcases List.mem_append.mp h3 with h2 | hrs
      rotate_left
      · -- regular scalar lines
        rcases scalar_budget_lines_mem _ _ _ _ _ hrs with ⟨g, hg, rfl⟩
        refine braceFree_line_of_field _ _ (braceFree_pyIndent (d + 1)) ?_
        exact hfieldbf g (List.mem_of_mem_filter
          (mem_of_prioritize_scalar_snd _ _ hg))
      rcases List.mem_append.mp h2 with hid | hps
      · -- id line
        split at hid
        · rcases List.mem_singleton.mp hid with rfl
          exact braceFree_line_of_field _ _
            (braceFree_pyIndent (d + 1)) (by decide)
        · simp at hid
      · -- priority scalar lines
        rcases scalar_budget_lines_mem _ _ _ _ _ hps with ⟨g, hg, rfl⟩
        refine braceFree_line_of_field _ _ (braceFree_pyIndent (d + 1)) ?_
        exact hfieldbf g (List.mem_of_mem_filter
          (mem_of_prioritize_scalar_fst _ _ hg))
    · -- build_validated_sub_query_improved
      intro fld d v p s h
      rw [build_validated_sub_query_improved] at h
      split at h
      · cases h
      · split at h
        · injection h with h
          subst h
          apply balancedBraces_append
          · exact balanced_of_braceFree _ (by decide)
          · exact balanced_validated_connection reg _ _ _ _ hreg
        · split at h
          · injection h with h
            subst h
            exact ihE _ _ _
          · split at h
            · injection h with h
              subst h
              decide
            · split at h
              · injection h with h
                subst h
                exact ihB _ _ _ _
              · cases h
    · -- build_validated_edge_query
      intro e d v
      rw [build_validated_edge_query]
      apply balanced_edge_scaffold
      split
      · decide
      · split
        · split
          next h1 =>
            split
            · apply balancedBraces_append
              · decide
              · apply balanced_sliceInnerStrip
                · exact balanced_pyStrip _ (ihB _ _ _ _)
                · exact (Bool.and_eq_true _ _ ▸ h1).1
                · exact (Bool.and_eq_true _ _ ▸ h1).2
            · decide
          · decide
        · decide
    · -- complex_priority_loop
      intro d v ct ind flds a mf st hind hflds line hline
      simp only [complex_priority_loop] at hline
      split at hline
      · simp at hline
      next fld rest =>
        split at hline
        · simp at hline
        · split at hline
          next sq hsq =>
            rcases List.mem_cons.mp hline with rfl | hline
            · exact balanced_sub_line _ _ _ hind
                (hflds fld (List.mem_cons_self _ _)) (ihS _ _ _ _ _ hsq)
            · exact ihP _ _ _ _ _ _ _ _ hind
                (fun g hg => hflds g (List.mem_cons_of_mem _ hg)) line hline
          · exact ihP _ _ _ _ _ _ _ _ hind
              (fun g hg => hflds g (List.mem_cons_of_mem _ hg)) line hline
    · -- complex_regular_loop
      intro d v ct ind st flds a mf hind hflds line hline
      simp only [complex_regular_loop] at hline
      split at hline
      · simp at hline
      next fld rest =>
        split at hline
        · simp at hline
        · split at hline
          next sq hsq =>
            rcases List.mem_cons.mp hline with rfl | hline
            · split
              · apply balancedBraces_append _ _ _ (ihS _ _ _ _ _ hsq)
                apply balanced_of_braceFree
                exact braceFree_append _ _
                  (braceFree_append _ _ hind (hflds fld (List.mem_cons_self _ _)))
                  (by decide)
              · exact balanced_sub_line _ _ _ hind
                  (hflds fld (List.mem_cons_self _ _)) (ihS _ _ _ _ _ hsq)
            · exact ihR _ _ _ _ _ _ _ _ hind
                (fun g hg => hflds g (List.mem_cons_of_mem _ hg)) line hline
          · exact ihR _ _ _ _ _ _ _ _ hind
              (fun g hg => hflds g (List.mem_cons_of_mem _ hg)) line hline


/-! ## Crawler invariants (claim C3) -/

/-- The crawl invariant: the request log never repeats a name, every requested
name has been marked as introspected, and no built-in scalar or `__`-meta name
is ever requested. -/
def crawl_inv (st : CrawlState) : Prop :=
  st.requestLog.Nodup ∧
  (∀ n ∈ st.requestLog, n ∈ st.introspected_types) ∧
  (∀ n ∈ st.requestLog, builtin_scalars.contains n = false ∧ is_meta_name n = false)

/-- One crawl step only grows the known set, and only ever issues requests for
names that were not already known. -/
def step_ok (st st' : CrawlState) : Prop :=
  (∀ n ∈ st.introspected_types, n ∈ st'.introspected_types) ∧
  (∃ new, st'.requestLog = st.requestLog ++ new ∧
    ∀ n ∈ new, n ∉ st.introspected_types)

theorem step_ok_refl (st : CrawlState) : step_ok st st :=
  ⟨fun _ h => h, [], by simp, by simp⟩

theorem step_ok_trans (s1 s2 s3 : CrawlState) (h12 : step_ok s1 s2)
    (h23 : step_ok s2 s3) : step_ok s1 s3 := by
  obtain ⟨hsub12, new1, hlog1, hnew1⟩ := h12
  obtain ⟨hsub23, new2, hlog2, hnew2⟩ := h23
  refine ⟨fun n h => hsub23 n (hsub12 n h), new1 ++ new2, ?_, ?_⟩
  · rw [hlog2, hlog1, List.append_assoc]
  · intro n hn
    rcases List.mem_append.mp hn with h | h
    · exact hnew1 n h
    · exact fun hmem => hnew2 n h (hsub12 n hmem)

theorem contains_iff_mem (l : List String) (n : String) :
    l.contains n = true ↔ n ∈ l := by
  simp [List.contains, List.elem_iff]

/-- The state after marking a fresh valid name known and logging its request
keeps the invariant. -/
theorem mark_and_log_ok (st : CrawlState) (name : String) (hinv : crawl_inv st)
    (hfresh : name ∉ st.introspected_types)
    (hvalid : builtin_scalars.contains name = false ∧ is_meta_name name = false) :
    crawl_inv ⟨st.introspected_types ++ [name], st.requestLog ++ [name], st.data⟩ ∧
    step_ok st ⟨st.introspected_types ++ [name], st.requestLog ++ [name], st.data⟩ := by
  obtain ⟨hnd, hsub, hval⟩ := hinv
  constructor
  · refine ⟨?_, ?_, ?_⟩
    · rw [List.nodup_append]
      exact ⟨hnd, List.nodup_singleton name,
        fun x hx hx' => hfresh (by
          rcases List.mem_singleton.mp hx' with rfl
          exact hsub x hx)⟩
    · intro n hn
      rcases List.mem_append.mp hn with h | h
      · exact List.mem_append_left _ (hsub n h)
      · exact List.mem_append_right _ h
    · intro n hn
      rcases List.mem_append.mp hn with h | h
      · exact hval n h
      · rcases List.mem_singleton.mp h with rfl
        exact hvalid
  · refine ⟨fun n h => List.mem_append_left _ h, [name], rfl, ?_⟩
    intro n hn
    rcases List.mem_singleton.mp hn with rfl
    exact hfresh

/-- Invariant preservation for the whole crawl, at every fuel. -/
theorem crawl_step (oracle : String → Option RawTypeData) : ∀ fuel : Nat,
    (∀ name depth st, crawl_inv st →
      crawl_inv (fetch_introspection_data oracle fuel name depth st) ∧
      step_ok st (fetch_introspection_data oracle fuel name depth st)) ∧
    (∀ names depth st, crawl_inv st →
      crawl_inv (fetch_constraint_list oracle fuel names depth st) ∧
      step_ok st (fetch_constraint_list oracle fuel names depth st)) ∧
    (∀ names depth st, crawl_inv st →
      crawl_inv (fetch_related_list oracle fuel names depth st) ∧
      step_ok st (fetch_related_list oracle fuel names depth st)) := by
  intro fuel
  induction fuel with
  | zero =>
    refine ⟨?_, ?_, ?_⟩ <;>
      { intro _ _ st hinv; exact ⟨hinv, step_ok_refl st⟩ }
  | succ f ih =>
    obtain ⟨ihF, ihC, ihR⟩ := ih
    refine ⟨?_, ?_, ?_⟩
    · intro name depth st hinv
      rw [fetch_introspection_data]
      split
      · exact ⟨hinv, step_ok_refl st⟩
      · split
        · exact ⟨hinv, step_ok_refl st⟩
        next hcon hval =>
          have hfresh : name ∉ st.introspected_types := by
            intro hmem
            rw [(contains_iff_mem _ _).mpr hmem] at hcon
            exact hcon rfl
          have hvalid : builtin_scalars.contains name = false ∧
              is_meta_name name = false := by
            have h0 : (is_meta_name name || builtin_scalars.contains name) = false := by
              cases hb : (is_meta_name name || builtin_scalars.contains name) with
              | false => rfl
              | true => exact absurd hb hval
            rcases Bool.or_eq_false_iff.mp h0 with ⟨h1, h2⟩
            exact ⟨h2, h1⟩
          have hml := mark_and_log_ok st name hinv hfresh hvalid
          split
          · exact hml
          · -- successful fetch: append the entry, then the two recursions
            have hinv3 : ∀ dat : Registry, crawl_inv
                ⟨st.introspected_types ++ [name], st.requestLog ++ [name], dat⟩ :=
              fun _ => hml.1
            have hstep3 : ∀ dat : Registry, step_ok st
                ⟨st.introspected_types ++ [name], st.requestLog ++ [name], dat⟩ :=
              fun _ => hml.2
            have hQ : ∀ (c : Bool) (names : List String) (dep : Nat) (s3 : CrawlState),
                crawl_inv s3 →
                crawl_inv (if c then fetch_constraint_list oracle f names dep s3 else s3) ∧
                step_ok s3 (if c then fetch_constraint_list oracle f names dep s3 else s3) := by
              intro c names dep s3 hs3
              cases c with
              | false => exact ⟨hs3, step_ok_refl s3⟩
              | true => exact ihC names dep s3 hs3
            split
            · refine ⟨(ihR _ _ _ (hQ _ _ _ _ (hinv3 _)).1).1,
                step_ok_trans _ _ _ (hstep3 _)
                  (step_ok_trans _ _ _ (hQ _ _ _ _ (hinv3 _)).2
                    (ihR _ _ _ (hQ _ _ _ _ (hinv3 _)).1).2)⟩
            · exact ⟨(hQ _ _ _ _ (hinv3 _)).1,
                step_ok_trans _ _ _ (hstep3 _) (hQ _ _ _ _ (hinv3 _)).2⟩
    · intro names depth st hinv
      simp only [fetch_constraint_list]
      split
      · exact ⟨hinv, step_ok_refl st⟩
      · split
        · exact ihC _ _ _ hinv
        · exact ⟨(ihC _ _ _ (ihF _ _ _ hinv).1).1,
            step_ok_trans _ _ _ (ihF _ _ _ hinv).2
              (ihC _ _ _ (ihF _ _ _ hinv).1).2⟩
    · intro names depth st hinv
      simp only [fetch_related_list]
      split
      · exact ⟨hinv, step_ok_refl st⟩
      · split
        · exact ⟨(ihR _ _ _ (ihF _ _ _ hinv).1).1,
            step_ok_trans _ _ _ (ihF _ _ _ hinv).2
              (ihR _ _ _ (ihF _ _ _ hinv).1).2⟩
        · exact ihR _ _ _ hinv


/-! ## Brace-freeness propagation through the Python string helpers -/

theorem mem_pyStrip (s : String) (c : Char) (h : c ∈ (pyStrip s).toList) :
    c ∈ s.toList := by
  rw [pyStrip] at h
  have h1 : c ∈ ((s.toList.dropWhile Char.isWhitespace).reverse.dropWhile
      Char.isWhitespace).reverse := h
  rw [List.mem_reverse] at h1
  have h2 := (List.dropWhile_sublist (l := (s.toList.dropWhile Char.isWhitespace).reverse)
    (p := Char.isWhitespace)).mem h1
  rw [List.mem_reverse] at h2
  exact (List.dropWhile_sublist (l := s.toList) (p := Char.isWhitespace)).mem h2

theorem braceFree_pyStrip (s : String) (h : braceFree s) : braceFree (pyStrip s) :=
  fun c hc => h c (mem_pyStrip s c hc)

theorem braceFree_strip_bang (s : String) (h : braceFree s) : braceFree (strip_bang s) := by
  intro c hc
  have h1 := mem_pyStrip _ c hc
  have h2 : c ∈ s.toList := by
    have := List.mem_filter.mp h1
    exact this.1
  exact h c h2

theorem pyToLowerChar_braces (c : Char) (h : c ≠ '\x7b' ∧ c ≠ '\x7d') :
    pyToLowerChar c ≠ '\x7b' ∧ pyToLowerChar c ≠ '\x7d' := by
  rw [pyToLowerChar]
  cases hf : lowerPairs.find? (fun p => p.1 == c) with
  | none => exact h
  | some p =>
    have hp := List.mem_of_find?_eq_some hf
    have : ∀ q ∈ lowerPairs, q.2 ≠ '\x7b' ∧ q.2 ≠ '\x7d' := by decide
    exact this p hp

theorem pyToUpperChar_braces (c : Char) (h : c ≠ '\x7b' ∧ c ≠ '\x7d') :
    pyToUpperChar c ≠ '\x7b' ∧ pyToUpperChar c ≠ '\x7d' := by
  rw [pyToUpperChar]
  cases hf : upperPairs.find? (fun p => p.1 == c) with
  | none => exact h
  | some p =>
    have hp := List.mem_of_find?_eq_some hf
    have : ∀ q ∈ upperPairs, q.2 ≠ '\x7b' ∧ q.2 ≠ '\x7d' := by decide
    exact this p hp

theorem braceFree_pyLower (s : String) (h : braceFree s) : braceFree (pyLower s) := by
  intro c hc
  rcases List.mem_map.mp hc with ⟨d, hd, rfl⟩
  exact pyToLowerChar_braces d (h d hd)

theorem braceFree_pyCapitalize (s : String) (h : braceFree s) :
    braceFree (pyCapitalize s) := by
  rw [pyCapitalize]
  cases hs : s.toList with
  | nil => intro c hc; cases hc
  | cons c0 rest =>
    intro c hc
    rcases List.mem_cons.mp hc with rfl | hc
    · exact pyToUpperChar_braces c0 (h c0 (hs ▸ List.mem_cons_self _ _))
    · rcases List.mem_map.mp hc with ⟨d, hd, rfl⟩
      exact pyToLowerChar_braces d (h d (hs ▸ List.mem_cons_of_mem _ hd))

theorem find_query_field_braceFree (reg : Registry) (tn q : String)
    (hreg : cleanRegistry reg) (h : find_query_field_for_type reg tn = some q) :
    braceFree q := by
  rw [find_query_field_for_type] at h
  split at h
  · cases h
  next qd hl =>
    have hclean := (lookup_clean reg _ qd hreg hl).2
    split at h
    next f hfind =>
      injection h with h
      subst h
      exact (hclean f (List.mem_of_find?_eq_some hfind)).1
    next hnone =>
      split at h
      next f hfind =>
        injection h with h
        subst h
        exact (hclean f (List.mem_of_find?_eq_some hfind)).1
      · cases h

/-! ## Membership of selected fields in the registry entry (document-level
generator) -/

theorem mem_validate_fields (reg : Registry) (fields : List FieldDescr) (tn : String)
    (td : TypeEntry) (h : lookupType reg tn = some td) (f : FieldDescr)
    (hf : f ∈ validate_fields_against_schema reg fields tn) : f ∈ td.fields := by
  rw [validate_fields_against_schema, h] at hf
  rcases List.mem_filterMap.mp hf with ⟨g, _, hg⟩
  split at hg
  · cases hg
  · split at hg
    · cases hg
    next actual hfind =>
      split at hg
      · injection hg with hg
        subst hg
        exact List.mem_of_find?_eq_some hfind
      · cases hg

theorem mem_get_valid_scalar (reg : Registry) (fields : List FieldDescr) (tn : String)
    (td : TypeEntry) (h : lookupType reg tn = some td) (f : FieldDescr)
    (hf : f ∈ get_valid_scalar_fields reg fields tn) : f ∈ td.fields := by
  rw [get_valid_scalar_fields, h] at hf
  rcases List.mem_filterMap.mp hf with ⟨g, _, hg⟩
  split at hg
  · cases hg
  next actual hfind =>
    split at hg
    · injection hg with hg
      subst hg
      exact List.mem_of_find?_eq_some hfind
    · cases hg

theorem mem_get_valid_complex (reg : Registry) (fields : List FieldDescr) (tn : String)
    (v : List String) (td : TypeEntry) (h : lookupType reg tn = some td) (f : FieldDescr)
    (hf : f ∈ get_valid_complex_fields reg fields tn v) : f ∈ td.fields := by
  rw [get_valid_complex_fields, h] at hf
  rcases List.mem_filterMap.mp hf with ⟨g, _, hg⟩
  split at hg
  · cases hg
  next actual hfind =>
    split at hg
    · split at hg
      · injection hg with hg
        subst hg
        exact List.mem_of_find?_eq_some hfind
      · cases hg
    · cases hg

theorem mem_ite_nil {c : Prop} [Decidable c] {l : List FieldDescr} {x : FieldDescr}
    (h : x ∈ if c then l else []) : x ∈ l := by
  split at h
  · exact h
  · exact absurd h (List.not_mem_nil x)

theorem mem_ite_self_filter {c : Prop} [Decidable c] {l : List FieldDescr}
    {p : FieldDescr → Bool} {x : FieldDescr}
    (h : x ∈ if c then l else l.filter p) : x ∈ l := by
  split at h
  · exact h
  · exact List.mem_of_mem_filter h

theorem mem_gen_type_selected (reg : Registry) (tn : String) (mf : Nat)
    (td : TypeEntry) (h : lookupType reg tn = some td) (f : FieldDescr)
    (hf : f ∈ gen_type_selected_fields reg tn mf td.fields) : f ∈ td.fields := by
  rw [gen_type_selected_fields] at hf
  have hsimple0 : ∀ g ∈ get_valid_scalar_fields reg
      (validate_fields_against_schema reg td.fields tn) tn, g ∈ td.fields :=
    fun g hg => mem_get_valid_scalar reg _ tn td h g hg
  have hcomplex : ∀ g ∈ get_valid_complex_fields reg
      (validate_fields_against_schema reg td.fields tn) tn [tn], g ∈ td.fields :=
    fun g hg => mem_get_valid_complex reg _ tn _ td h g hg
  have hsimple : ∀ g, g ∈ (if (match (get_valid_scalar_fields reg
        (validate_fields_against_schema reg td.fields tn) tn).find?
          (fun f : FieldDescr => f.name == "id") with
        | some idf => [idf]
        | none => ([] : List FieldDescr)).isEmpty then
        get_valid_scalar_fields reg (validate_fields_against_schema reg td.fields tn) tn
      else (get_valid_scalar_fields reg
        (validate_fields_against_schema reg td.fields tn) tn).filter
          (fun f : FieldDescr => f.name != "id")) → g ∈ td.fields :=
    fun g hg => hsimple0 g (mem_ite_self_filter hg)
  rcases List.mem_append.mp hf with h2 | h3
  · rcases List.mem_append.mp h2 with h4 | h5
    · rcases List.mem_append.mp h4 with h6 | h7
      · -- idSel
        cases hfind : (get_valid_scalar_fields reg
            (validate_fields_against_schema reg td.fields tn) tn).find?
              (fun f : FieldDescr => f.name == "id") with
        | some idf =>
          rw [hfind] at h6
          have h6' : f ∈ [idf] := h6
          rcases List.mem_singleton.mp h6' with rfl
          exact hsimple0 _ (List.mem_of_find?_eq_some hfind)
        | none =>
          rw [hfind] at h6
          have h6' : f ∈ ([] : List FieldDescr) := h6
          cases h6'
      · -- priority scalars
        exact hsimple _ (mem_of_prioritize_scalar_fst _ _
          (List.mem_of_mem_take (mem_ite_nil h7)))
    · -- regular scalars
      exact hsimple _ (mem_of_prioritize_scalar_snd _ _
        (List.mem_of_mem_take (mem_ite_nil h5)))
  · -- one priority complex
    exact hcomplex _ (mem_of_prioritize_complex_fst _ _ _
      (List.mem_of_mem_take (mem_ite_nil h3)))


theorem braceFree_pyJoin (sep : String) (l : List String) (hsep : braceFree sep)
    (h : ∀ s ∈ l, braceFree s) : braceFree (pyJoin sep l) := by
  induction l with
  | nil => intro c hc; cases hc
  | cons x xs ih =>
    cases xs with
    | nil => exact h x (List.mem_cons_self _ _)
    | cons y rest =>
      refine braceFree_append _ _
        (braceFree_append _ _ (h x (List.mem_cons_self _ _)) hsep) ?_
      exact ih (fun s hs => h s (List.mem_cons_of_mem _ hs))

theorem gen_op_render_braceFree (a : ArgDescr) (ha : braceFree a.name) (s : String)
    (h : gen_op_render_arg a = some s) : braceFree s := by
  rw [gen_op_render_arg] at h
  split at h
  · injection h with h; subst h
    exact braceFree_append _ _ ha (by decide)
  · split at h
    · injection h with h; subst h
      exact braceFree_append _ _ ha (by decide)
    · split at h
      · injection h with h; subst h
        exact braceFree_append _ _ ha (by decide)
      · split at h
        · injection h with h; subst h
          exact braceFree_append _ _ ha (by decide)
        · cases h

theorem gen_op_var_def_braceFree (args : List ArgDescr)
    (hargs : ∀ a ∈ args, braceFree a.name ∧ braceFree a.type)
    (c1 c2 c3 c4 : Bool) (s : String)
    (h : s ∈ gen_op_var_definitions args c1 c2 c3 c4) : braceFree s := by
  rw [gen_op_var_definitions] at h
  rcases List.mem_filterMap.mp h with ⟨a, ha, hr⟩
  have hat := (hargs a ha).2
  split at hr
  · injection hr with hr; subst hr
    exact braceFree_append _ _ (by decide) (braceFree_strip_bang _ hat)
  · split at hr
    · injection hr with hr; subst hr
      exact braceFree_append _ _ (by decide) hat
    · split at hr
      · injection hr with hr; subst hr
        exact braceFree_append _ _ (by decide) hat
      · split at hr
        · injection hr with hr; subst hr
          exact braceFree_append _ _ (by decide) (braceFree_strip_bang _ hat)
        · cases hr

/-- Every rendered line of the per-type generator's body is balanced. -/
theorem gen_type_body_parts_balanced (reg : Registry) (fuel : Nat) (tn : String)
    (selected : List FieldDescr) (hreg : cleanRegistry reg)
    (hnames : ∀ f ∈ selected, braceFree f.name) :
    ∀ part ∈ gen_type_body_parts reg fuel tn selected, balancedBraces part := by
  intro part hp
  rcases List.mem_map.mp hp with ⟨f, hf, rfl⟩
  split
  · exact balanced_sub_line _ _ _ (by decide) (hnames f hf)
      (balanced_validated_connection reg _ _ _ _ hreg)
  · split
    · exact balanced_of_braceFree _
        (braceFree_append _ _ (by decide) (hnames f hf))
    · split
      · exact balanced_sub_line _ _ _ (by decide) (hnames f hf)
          ((synth_balanced reg hreg fuel).1 _ _ _ _)
      · exact balanced_of_braceFree _
          (braceFree_append _ _ (by decide) (hnames f hf))

theorem beginsWith_query_pyJoin (a s : String) (l : List String)
    (h : ∃ t, a = "query" ++ t) :
    ∃ r, pyJoin "\n" (a :: s :: l) = "query" ++ r := by
  rcases h with ⟨t, rfl⟩
  exact ⟨t ++ "\n" ++ pyJoin "\n" (s :: l), by simp [pyJoin, String.append_assoc]⟩

/-- Claim C2 auxiliary: the per-type document is balanced and `query`-prefixed
whenever the registry's names and the entity id are brace-free. -/
theorem gen_type_final_query_ok (reg : Registry) (fuel : Nat)
    (tn eid : String) (mf : Nat) (td : TypeEntry)
    (hreg : cleanRegistry reg) (heid : braceFree eid)
    (hlk : lookupType reg tn = some td) :
    balancedBraces (gen_type_final_query reg fuel tn eid mf td.fields) ∧
    ∃ r, gen_type_final_query reg fuel tn eid mf td.fields = "query" ++ r := by
  have htn : braceFree tn := (lookup_clean reg tn td hreg hlk).1
  have hclean := (lookup_clean reg tn td hreg hlk).2
  have hnames : ∀ f ∈ gen_type_selected_fields reg tn mf td.fields, braceFree f.name :=
    fun f hf => (hclean f (mem_gen_type_selected reg tn mf td hlk f hf)).1
  have hparts := gen_type_body_parts_balanced reg fuel tn _ hreg hnames
  have hl1ob : cnt '\x7b' ("query Get" ++ tn ++ " \x7b") = 1 := by
    rw [cnt_append, cnt_append, cnt_ob_eq_zero _ htn]
    decide
  have hl1cb : cnt '\x7d' ("query Get" ++ tn ++ " \x7b") = 0 := by
    rw [cnt_append, cnt_append, cnt_cb_eq_zero _ htn]
    decide
  have hheadbf : ∀ nm : String, braceFree nm →
      cnt '\x7b' ("  " ++ nm ++ "(id: \"" ++ eid ++ "\") \x7b") = 1 ∧
      cnt '\x7d' ("  " ++ nm ++ "(id: \"" ++ eid ++ "\") \x7b") = 0 := by
    intro nm hnm
    constructor
    · rw [cnt_append, cnt_append, cnt_append, cnt_append,
        cnt_ob_eq_zero _ hnm, cnt_ob_eq_zero _ heid]
      decide
    · rw [cnt_append, cnt_append, cnt_append, cnt_append,
        cnt_cb_eq_zero _ hnm, cnt_cb_eq_zero _ heid]
      decide
  have hhead : cnt '\x7b' (match find_query_field_for_type reg tn with
      | some query_field => "  " ++ query_field ++ "(id: \"" ++ eid ++ "\") \x7b"
      | none => "  " ++ pyLower tn ++ "(id: \"" ++ eid ++ "\") \x7b") = 1 ∧
      cnt '\x7d' (match find_query_field_for_type reg tn with
      | some query_field => "  " ++ query_field ++ "(id: \"" ++ eid ++ "\") \x7b"
      | none => "  " ++ pyLower tn ++ "(id: \"" ++ eid ++ "\") \x7b") = 0 := by
    cases hqf : find_query_field_for_type reg tn with
    | some qf => exact hheadbf qf (find_query_field_braceFree reg tn qf hreg hqf)
    | none => exact hheadbf _ (braceFree_pyLower _ htn)
  constructor
  · rw [gen_type_final_query, balancedBraces, cnt_pyJoin _ _ (by decide),
      cnt_pyJoin _ _ (by decide)]
    simp only [List.map_append, List.map_cons, List.sum_append, List.sum_cons,
      List.map_nil, List.sum_nil]
    have hsum := sum_map_cnt_eq _ hparts
    have e1 : cnt '\x7b' "  \x7d" = 0 := by decide
    have e2 : cnt '\x7d' "  \x7d" = 1 := by decide
    have e3 : cnt '\x7b' "\x7d" = 0 := by decide
    have e4 : cnt '\x7d' "\x7d" = 1 := by decide
    omega
  · rw [gen_type_final_query]
    simp only [List.cons_append]
    apply beginsWith_query_pyJoin
    refine ⟨" Get" ++ tn ++ " \x7b", ?_⟩
    rw [show ("query Get" : String) = "query" ++ " Get" from by decide,
      String.append_assoc "query" " Get" tn,
      String.append_assoc "query" (" Get" ++ tn) " \x7b"]


/-- The document emitted by `generate_example_query_for_operation` is balanced
and begins with `query` (auxiliary to claim C2). -/
theorem gen_op_query_ok (reg : Registry) (fuel : Nat) (opn st : String)
    (hreg : cleanRegistry reg) (hop : braceFree opn) (q : String)
    (hq : generate_example_query_for_operation reg fuel opn st = some q) :
    balancedBraces q ∧ ∃ r, q = "query" ++ r := by
  rw [generate_example_query_for_operation] at hq
  split at hq
  · cases hq
  next qd hlk =>
    split at hq
    · cases hq
    next op_field hfind =>
      have hclean := (lookup_clean reg _ qd hreg hlk).2
      have hargs : ∀ a ∈ op_field.args, braceFree a.name ∧ braceFree a.type :=
        (hclean op_field (List.mem_of_find?_eq_some hfind)).2
      injection hq with hq
      subst hq
      have hcap : braceFree (pyCapitalize opn) := braceFree_pyCapitalize _ hop
      have hvds : braceFree (if !(gen_op_var_definitions op_field.args
          (gen_op_has_constraints op_field.args) (gen_op_has_first op_field.args)
          (gen_op_has_after op_field.args) (gen_op_has_sort op_field.args)).isEmpty then
            "(" ++ pyJoin ", " (gen_op_var_definitions op_field.args
              (gen_op_has_constraints op_field.args) (gen_op_has_first op_field.args)
              (gen_op_has_after op_field.args) (gen_op_has_sort op_field.args)) ++ ")"
          else "") := by
        split
        · refine braceFree_append _ _ (braceFree_append _ _ (by decide) ?_) (by decide)
          refine braceFree_pyJoin _ _ (by decide) ?_
          intro s hs
          exact gen_op_var_def_braceFree _ hargs _ _ _ _ s hs
        · decide
      have hqa : braceFree (if !(gen_op_query_args op_field.args).isEmpty then
            "(" ++ pyJoin ", " (gen_op_query_args op_field.args) ++ ")"
          else "") := by
        split
        · refine braceFree_append _ _ (braceFree_append _ _ (by decide) ?_) (by decide)
          refine braceFree_pyJoin _ _ (by decide) ?_
          intro s hs
          rw [gen_op_query_args] at hs
          rcases List.mem_filterMap.mp hs with ⟨a, ha, hr⟩
          exact gen_op_render_braceFree a (hargs a ha).1 s hr
        · decide
      have hqb := (synth_balanced reg hreg fuel).1 op_field.type 0 [] none
      constructor
      · rw [balancedBraces]
        simp only [cnt_append]
        rw [balancedBraces] at hqb
        have v1 := cnt_ob_eq_zero _ hcap
        have v2 := cnt_cb_eq_zero _ hcap
        have v3 := cnt_ob_eq_zero _ hvds
        have v4 := cnt_cb_eq_zero _ hvds
        have v5 := cnt_ob_eq_zero _ hqa
        have v6 := cnt_cb_eq_zero _ hqa
        have v7 := cnt_ob_eq_zero _ hop
        have v8 := cnt_cb_eq_zero _ hop
        have e1 : cnt '\x7b' "query " = 0 := by decide
        have e2 : cnt '\x7d' "query " = 0 := by decide
        have e3 : cnt '\x7b' "Example" = 0 := by decide
        have e4 : cnt '\x7d' "Example" = 0 := by decide
        have e5 : cnt '\x7b' " \x7b\n  " = 1 := by decide
        have e6 : cnt '\x7d' " \x7b\n  " = 0 := by decide
        have e7 : cnt '\x7b' " " = 0 := by decide
        have e8 : cnt '\x7d' " " = 0 := by decide
        have e9 : cnt '\x7b' "\n\x7d" = 0 := by decide
        have e10 : cnt '\x7d' "\n\x7d" = 1 := by decide
        omega
      · refine ⟨" " ++ pyCapitalize opn ++ "Example" ++
          (if !(gen_op_var_definitions op_field.args
              (gen_op_has_constraints op_field.args) (gen_op_has_first op_field.args)
              (gen_op_has_after op_field.args) (gen_op_has_sort op_field.args)).isEmpty then
            "(" ++ pyJoin ", " (gen_op_var_definitions op_field.args
              (gen_op_has_constraints op_field.args) (gen_op_has_first op_field.args)
              (gen_op_has_after op_field.args) (gen_op_has_sort op_field.args)) ++ ")"
          else "") ++
          " \x7b\n  " ++ opn ++
          (if !(gen_op_query_args op_field.args).isEmpty then
            "(" ++ pyJoin ", " (gen_op_query_args op_field.args) ++ ")"
          else "") ++
          " " ++ build_query_body reg fuel op_field.type 0 [] none ++ "\n\x7d", ?_⟩
        rw [show ("query " : String) = "query" ++ " " from by decide]
        simp only [String.append_assoc]

/-- Claim C2: every document produced by the two synthesizer entry points has
equal `{` and `}` counts and begins with the keyword `query`, provided the
registry's GraphQL names, the entity id and the operation name are brace-free
(as GraphQL names are). -/
theorem synthesized_documents_balanced_and_query_prefixed (reg : Registry)
    (fuel : Nat) (type_name entity_id operation_name search_term : String)
    (hreg : cleanRegistry reg) (hid : braceFree entity_id)
    (hop : braceFree operation_name) :
    (∀ q w, generate_example_query_for_type reg fuel type_name entity_id = (some q, w) →
      balancedBraces q ∧ ∃ r, q = "query" ++ r) ∧
    (∀ q, generate_example_query_for_operation reg fuel operation_name search_term =
        some q →
      balancedBraces q ∧ ∃ r, q = "query" ++ r) := by
  constructor
  · intro q w hq
    rw [generate_example_query_for_type] at hq
    split at hq
    · simp at hq
    next td hlk =>
      split at hq
      · simp at hq
      · rw [Prod.mk.injEq] at hq
        obtain ⟨hq1, -⟩ := hq
        injection hq1 with hq1
        subst hq1
        exact gen_type_final_query_ok reg fuel type_name entity_id 5 td hreg hid hlk
  · intro q hq
    exact gen_op_query_ok reg fuel operation_name search_term hreg hop q hq

/-! ## Concrete schema fixtures for the per-claim theorems -/

/-- A field descriptor with no description and no arguments. -/
def mkField (n t : String) : FieldDescr := ⟨n, t, "", []⟩

/-- A registry entry with the given kind and fields. -/
def mkEntry (n k : String) (fs : List FieldDescr) : TypeEntry :=
  ⟨n, "", k, 0, fs, [], [], [], fs.length⟩

/-- A self-referential schema: `A.self : A` (claim C5's cycle scenario). -/
def self_ref_registry : Registry := [("A", mkEntry "A" "OBJECT" [mkField "self" "A"])]

/-- A schema whose only `id` field carries a required (non-null) argument. -/
def required_id_entry : TypeEntry :=
  mkEntry "A" "OBJECT" [⟨"id", "ID!", "", [⟨"x", "Int!", "", ""⟩]⟩]

def required_id_registry : Registry := [("A", required_id_entry)]

/-- An enum-only schema. -/
def enum_entry : TypeEntry := mkEntry "E" "ENUM" []

def enum_registry : Registry := [("E", enum_entry)]

/-- The connection / edge / node schema of the spec's Scenario B. -/
def xconnection_entry : TypeEntry :=
  mkEntry "XConnection" "OBJECT"
    [mkField "edges" "[XEdge!]!", mkField "pageInfo" "PageInfo!", mkField "total" "Int"]

def xedge_entry : TypeEntry :=
  mkEntry "XEdge" "OBJECT" [mkField "node" "Y!", mkField "cursor" "String!"]

def y_entry : TypeEntry :=
  mkEntry "Y" "OBJECT" [mkField "id" "ID!", mkField "votes" "Int"]

def connection_registry : Registry :=
  [("XConnection", xconnection_entry), ("XEdge", xedge_entry), ("Y", y_entry)]

/-- A schema whose Query type exposes no operation matching type `A` (the
document-level validation fails on the synthesized operation name). -/
def c10_query_entry : TypeEntry := mkEntry "Query" "OBJECT" [mkField "foo" "B"]

def c10_a_entry : TypeEntry := mkEntry "A" "OBJECT" [mkField "x" "String"]

def c10_registry : Registry := [("Query", c10_query_entry), ("A", c10_a_entry)]

/-- A small schema with a Query operation `title` returning `Title`. -/
def query_entry_w : TypeEntry :=
  mkEntry "Query" "OBJECT" [⟨"title", "Title", "", [⟨"id", "ID!", "", ""⟩]⟩]

def title_entry_w : TypeEntry :=
  mkEntry "Title" "OBJECT" [mkField "id" "ID!", mkField "titleType" "String"]

def witness_registry : Registry := [("Query", query_entry_w), ("Title", title_entry_w)]

/-! ## Claim C1 (field existence) -/

/-- Counterexample to claim C1: the `\x7b id \x7d` fallback emitted for a type
unknown to the registry selects the field `id` even though the existence
predicate `verify_field_exists_in_type` rejects `id` for that type. -/
theorem field_existence_counterexample :
    build_query_body ([] : Registry) 16 "A" 0 [] none = "\x7b id \x7d" ∧
    verify_field_exists_in_type ([] : Registry) "id" "A" = false :=
  ⟨rfl, rfl⟩

/-- Claim C1, amended: every field passed through the strict-verification
filter `verified_fields` does satisfy the existence predicate for its parent
type; the invariant fails only for the hard-coded `id` selections of the
fallback and scaffold bodies, which bypass this filter. -/
theorem verified_fields_satisfy_existence (reg : Registry) (type_name : String)
    (fields : List FieldDescr) (f : FieldDescr)
    (h : f ∈ verified_fields reg type_name fields) :
    verify_field_exists_in_type reg f.name type_name = true := by
  rw [verified_fields] at h
  simpa using (List.mem_filter.mp h).2

/-- Witness for the amended claim C1 at a concrete registry and field. -/
theorem verified_fields_satisfy_existence_witness :
    mkField "self" "A" ∈ verified_fields self_ref_registry "A" [mkField "self" "A"] ∧
    verify_field_exists_in_type self_ref_registry "self" "A" = true :=
  ⟨by decide, verified_fields_satisfy_existence self_ref_registry "A"
    [mkField "self" "A"] (mkField "self" "A") (by decide)⟩

/-! ## Claim C4 (required-argument exclusion) -/

/-- Counterexample to claim C4: the `id` field is selected unconditionally
(outside `queryable_fields`), even when its schema definition carries a
required (non-null) argument. -/
theorem required_argument_counterexample :
    build_query_body required_id_registry 16 "A" 0 [] none = "\x7b\n    id\n\x7d" ∧
    required_id_entry.fields = [⟨"id", "ID!", "", [⟨"x", "Int!", "", ""⟩]⟩] ∧
    (required_args ⟨"id", "ID!", "", [⟨"x", "Int!", "", ""⟩]⟩).isEmpty = false :=
  ⟨rfl, rfl, rfl⟩

/-- Claim C4, amended: every field selected through the `queryable_fields`
filter (all selections other than the hard-coded `id` ones) has no argument
whose type string denotes a required (non-null) argument. -/
theorem queryable_fields_exclude_required_args (fields : List FieldDescr)
    (f : FieldDescr) (h : f ∈ queryable_fields fields) :
    ∀ a ∈ f.args, ends_with_bang a.type = false := by
  have hp := (List.mem_filter.mp h).2
  rw [Bool.and_eq_true] at hp
  have he : required_args f = [] := List.isEmpty_iff.mp hp.2
  intro a ha
  by_contra hbang
  rw [Bool.not_eq_false] at hbang
  have hmem : a ∈ required_args f := List.mem_filter.mpr ⟨ha, hbang⟩
  rw [he] at hmem
  exact absurd hmem (List.not_mem_nil a)

/-- Witness for the amended claim C4 at a concrete field list. -/
theorem queryable_fields_exclude_required_args_witness :
    (⟨"year", "Int", "", [⟨"opt", "Int", "", ""⟩]⟩ : FieldDescr) ∈
      queryable_fields [⟨"year", "Int", "", [⟨"opt", "Int", "", ""⟩]⟩] ∧
    ∀ a ∈ (⟨"year", "Int", "", [⟨"opt", "Int", "", ""⟩]⟩ : FieldDescr).args,
      ends_with_bang a.type = false :=
  ⟨by decide, queryable_fields_exclude_required_args
    [⟨"year", "Int", "", [⟨"opt", "Int", "", ""⟩]⟩]
    ⟨"year", "Int", "", [⟨"opt", "Int", "", ""⟩]⟩ (by decide)⟩

/-! ## Claim C8 (wrapper flattening equations) -/

/-- Claim C8: `get_type_string` satisfies the three flattening equations, for
every descriptor and hence for arbitrarily deep wrapper nesting:
`NON_NULL(x)` maps to `flatten(x) ++ "!"`, `LIST(x)` to
`"[" ++ flatten(x) ++ "]"`, and a named bare node to its name. -/
theorem get_type_string_flattening_equations (name kind : String)
    (t : Option RawTypeRef) :
    get_type_string (some (.mk name "NON_NULL" t)) = get_type_string t ++ "!" ∧
    get_type_string (some (.mk name "LIST" t)) = "[" ++ get_type_string t ++ "]" ∧
    (kind ≠ "NON_NULL" → kind ≠ "LIST" → name ≠ "" →
      get_type_string (some (.mk name kind t)) = name) :=
  ⟨get_type_string_nonnull name t, get_type_string_list name t,
   fun h1 h2 h3 => get_type_string_named name kind t h1 h2 h3⟩

/-- Witness for claim C8: a doubly wrapped named node flattens to
`[Title]!`. -/
theorem get_type_string_flattening_equations_witness :
    get_type_string (some (.mk "Title" "OBJECT" none)) = "Title" ∧
    get_type_string (some (.mk "" "NON_NULL"
        (some (.mk "" "LIST" (some (.mk "Title" "OBJECT" none)))))) = "[Title]!" := by
  have h1 := (get_type_string_flattening_equations "Title" "OBJECT" none).2.2
    (by decide) (by decide) (by decide)
  refine ⟨h1, ?_⟩
  rw [(get_type_string_flattening_equations "" "OBJECT"
      (some (.mk "" "LIST" (some (.mk "Title" "OBJECT" none))))).1,
    (get_type_string_flattening_equations "" "OBJECT"
      (some (.mk "Title" "OBJECT" none))).2.1, h1]
  decide

/-! ## Claim C9 (well-formed type references) -/

/-- Counterexample to claim C9: a raw node with an empty name, a non-wrapper
kind and no inner node flattens to `kind ++ "(?)"`, which is not a
well-formed GraphQL type reference. -/
theorem type_ref_not_well_formed_counterexample :
    get_type_string (some (.mk "" "FOO" none)) = "FOO(?)" ∧
    ¬ WFT true ("FOO(?)".toList) := by
  refine ⟨rfl, ?_⟩
  apply not_wft_true
  · exact not_wft_false _ '(' (by decide) (by decide) (by decide)
  · decide

/-- Claim C9, amended: for every raw descriptor with standard GraphQL wrapper
structure (captured by `GoodRaw`; truncated chains, unknown kinds and missing
inner nodes are allowed, but names are non-empty and made of name characters
and `NON_NULL` never directly wraps `NON_NULL`), the flattened string is a
well-formed type reference. -/
theorem flattened_good_refs_well_formed (r : Option RawTypeRef)
    (h : GoodRaw true r) : WFT true (get_type_string r).toList :=
  goodRaw_wft true r h

/-- Witness for the amended claim C9 at a concrete `[Title]!` chain. -/
theorem flattened_good_refs_well_formed_witness :
    GoodRaw true (some (.mk "" "NON_NULL"
      (some (.mk "" "LIST" (some (.mk "Title" "OBJECT" none)))))) ∧
    WFT true (get_type_string (some (.mk "" "NON_NULL"
      (some (.mk "" "LIST" (some (.mk "Title" "OBJECT" none))))))).toList := by
  have hg : GoodRaw true (some (.mk "" "NON_NULL"
      (some (.mk "" "LIST" (some (.mk "Title" "OBJECT" none)))))) :=
    GoodRaw.nonNull "" _ (GoodRaw.listWrap "" _ (GoodRaw.up _
      (GoodRaw.named "Title" "OBJECT" none (by decide) (by decide) (by decide)
        (by decide))))
  exact ⟨hg, flattened_good_refs_well_formed _ hg⟩

/-! ## Claim C5 (terminal cases of the synthesizer) -/

/-- The priority-complex loop on an empty field list leaves the accumulator
unchanged, at every fuel. -/
theorem cpl_nil (reg : Registry) (fuel d : Nat) (v : List String) (ct ind : String)
    (a mf : Nat) (st : String) :
    complex_priority_loop reg fuel d v ct ind [] a mf st = ([], a, st) := by
  cases fuel <;> rfl

/-- Synthesis for the self-referential type `A.self : A` yields `\x7b id \x7d`
at every fuel: the recursive branch is cut by the visited set and the
resulting empty selection falls back to the minimal body. -/
theorem self_ref_body (fuel : Nat) :
    build_query_body self_ref_registry fuel "A" 0 [] none = "\x7b id \x7d" := by
  cases fuel with
  | zero => rfl
  | succ f =>
    cases f with
    | zero => rfl
    | succ f =>
      have key : ∀ l : List String × Nat × String, l = ([], 0, "A") →
          (if ((l.1 ++ [] : List String)).isEmpty = true then "\x7b id \x7d"
           else braces_block (pyIndent 0) (l.1 ++ [])) = "\x7b id \x7d" := by
        rintro l rfl
        rfl
      exact key (complex_priority_loop self_ref_registry f 0 ["A"] "A" (pyIndent 1)
        [] 0 15 "A") (cpl_nil self_ref_registry f 0 ["A"] "A" (pyIndent 1) 0 15 "A")

/-- Counterexample to claim C5: a type unknown to the registry whose name
contains `Connection` is rendered as the full generic pagination scaffold,
not as the minimal selection `\x7b id \x7d`. -/
theorem unknown_connection_not_minimal :
    lookupType ([] : Registry) "XConnection" = none ∧
    build_query_body ([] : Registry) 16 "XConnection" 0 [] none =
      connection_scaffold 0 (id_only_node_query 0) ∧
    connection_scaffold 0 (id_only_node_query 0) ≠ "\x7b id \x7d" :=
  ⟨rfl, rfl, by decide⟩

/-- Claim C5, amended: the synthesizer's terminal cases.  Depth over the
bound, a visited (cyclic) cleaned name, and an unknown cleaned name that
contains neither `Connection` nor `Edge` all emit `\x7b id \x7d`; a known
enum or scalar emits the empty selection; and synthesis for the
self-referential schema `A.self : A` terminates with `\x7b id \x7d` at every
fuel.  (An unknown name containing `Connection` or `Edge` instead receives
the corresponding generic scaffold.) -/
theorem synthesizer_terminal_cases :
    (∀ (reg : Registry) (fuel : Nat) (rt : String) (d : Nat) (v : List String)
        (m : Option Nat), d > 3 →
      build_query_body reg (fuel + 1) rt d v m = "\x7b id \x7d") ∧
    (∀ (reg : Registry) (fuel : Nat) (rt : String) (d : Nat) (v : List String)
        (m : Option Nat), ¬ d > 3 → v.contains (clean_type_name rt) = true →
      build_query_body reg (fuel + 1) rt d v m = "\x7b id \x7d") ∧
    (∀ (reg : Registry) (fuel : Nat) (rt : String) (d : Nat) (v : List String)
        (m : Option Nat), ¬ d > 3 → v.contains (clean_type_name rt) = false →
      pyIn "Connection" (clean_type_name rt) = false →
      pyIn "Edge" (clean_type_name rt) = false →
      lookupType reg (clean_type_name rt) = none →
      build_query_body reg (fuel + 1) rt d v m = "\x7b id \x7d") ∧
    (∀ (reg : Registry) (fuel : Nat) (rt : String) (d : Nat) (v : List String)
        (m : Option Nat) (td : TypeEntry), ¬ d > 3 →
      v.contains (clean_type_name rt) = false →
      pyIn "Connection" (clean_type_name rt) = false →
      pyIn "Edge" (clean_type_name rt) = false →
      lookupType reg (clean_type_name rt) = some td →
      td.kind = "ENUM" ∨ td.kind = "SCALAR" →
      build_query_body reg (fuel + 1) rt d v m = "") ∧
    (∀ fuel : Nat, build_query_body self_ref_registry fuel "A" 0 [] none =
      "\x7b id \x7d") := by
  refine ⟨?_, ?_, ?_, ?_, self_ref_body⟩
  · intro reg fuel rt d v m h
    rw [build_query_body, if_pos h]
  · intro reg fuel rt d v m h1 h2
    simp only [build_query_body]
    rw [if_neg h1, if_pos h2]
  · intro reg fuel rt d v m h1 h2 h3 h4 h5
    have h2' : ¬ (v.contains (clean_type_name rt) = true) := by
      intro hc; rw [h2] at hc; exact Bool.false_ne_true hc
    have h3' : ¬ (pyIn "Connection" (clean_type_name rt) = true) := by
      intro hc; rw [h3] at hc; exact Bool.false_ne_true hc
    have h4' : ¬ (pyIn "Edge" (clean_type_name rt) = true) := by
      intro hc; rw [h4] at hc; exact Bool.false_ne_true hc
    simp only [build_query_body]
    rw [if_neg h1, if_neg h2', if_neg h3', if_neg h4', h5]
  · intro reg fuel rt d v m td h1 h2 h3 h4 h5 hk
    have h2' : ¬ (v.contains (clean_type_name rt) = true) := by
      intro hc; rw [h2] at hc; exact Bool.false_ne_true hc
    have h3' : ¬ (pyIn "Connection" (clean_type_name rt) = true) := by
      intro hc; rw [h3] at hc; exact Bool.false_ne_true hc
    have h4' : ¬ (pyIn "Edge" (clean_type_name rt) = true) := by
      intro hc; rw [h4] at hc; exact Bool.false_ne_true hc
    simp only [build_query_body]
    rw [if_neg h1, if_neg h2', if_neg h3', if_neg h4', h5]
    rcases hk with h | h <;> simp [h]

/-- Witness for the amended claim C5: each terminal case evaluated at a
concrete input. -/
theorem synthesizer_terminal_cases_witness :
    build_query_body ([] : Registry) 5 "T" 4 [] none = "\x7b id \x7d" ∧
    build_query_body ([] : Registry) 5 "T" 0 ["T"] none = "\x7b id \x7d" ∧
    build_query_body ([] : Registry) 5 "T" 0 [] none = "\x7b id \x7d" ∧
    build_query_body enum_registry 5 "E" 0 [] none = "" ∧
    build_query_body self_ref_registry 5 "A" 0 [] none = "\x7b id \x7d" := by
  refine ⟨synthesizer_terminal_cases.1 [] 4 "T" 4 [] none (by decide),
    synthesizer_terminal_cases.2.1 [] 4 "T" 0 ["T"] none (by decide) (by decide),
    synthesizer_terminal_cases.2.2.1 [] 4 "T" 0 [] none (by decide) (by decide)
      (by decide) (by decide) rfl,
    synthesizer_terminal_cases.2.2.2.1 enum_registry 4 "E" 0 [] none enum_entry
      (by decide) (by decide) (by decide) (by decide) rfl (Or.inl rfl),
    synthesizer_terminal_cases.2.2.2.2 5⟩

/-! ## Claim C3 (no duplicate introspection requests) -/

/-- Claim C3: starting a crawl with an empty request log, every distinct type
name is requested at most once (the log has no duplicates); every requested
name is marked known the moment the fetch is attempted, whatever the oracle
answers; and no built-in scalar, no `__`-prefixed name, and no name already
known at the start is ever requested. -/
theorem no_duplicate_introspection_requests
    (oracle : String → Option RawTypeData) (fuel depth : Nat) (seed : String)
    (known0 : List String) (reg0 : Registry) :
    (fetch_introspection_data oracle fuel seed depth
      ⟨known0, [], reg0⟩).requestLog.Nodup ∧
    ∀ n ∈ (fetch_introspection_data oracle fuel seed depth
        ⟨known0, [], reg0⟩).requestLog,
      n ∈ (fetch_introspection_data oracle fuel seed depth
        ⟨known0, [], reg0⟩).introspected_types ∧
      builtin_scalars.contains n = false ∧ is_meta_name n = false ∧
      n ∉ known0 := by
  have h0 : crawl_inv ⟨known0, [], reg0⟩ :=
    ⟨List.nodup_nil, fun n hn => absurd hn (List.not_mem_nil n),
      fun n hn => absurd hn (List.not_mem_nil n)⟩
  obtain ⟨hinv, hstep⟩ := (crawl_step oracle fuel).1 seed depth ⟨known0, [], reg0⟩ h0
  obtain ⟨hnd, hsub, hval⟩ := hinv
  obtain ⟨hgrow, new, hlog, hnew⟩ := hstep
  refine ⟨hnd, fun n hn => ⟨hsub n hn, (hval n hn).1, (hval n hn).2, ?_⟩⟩
  have hn2 : n ∈ (⟨known0, [], reg0⟩ : CrawlState).requestLog ++ new := by
    rw [← hlog]
    exact hn
  have hn3 : n ∈ ([] : List String) ++ new := hn2
  rw [List.nil_append] at hn3
  exact hnew n hn3

/-- Witness for claim C3 at a concrete crawl: one failing fetch for `Title`
starting from the known set `["K"]`. -/
theorem no_duplicate_introspection_requests_witness :
    (fetch_introspection_data (fun _ => none) 3 "Title" 0
      ⟨["K"], [], []⟩).requestLog.Nodup ∧
    ("Title" ∈ (fetch_introspection_data (fun _ => none) 3 "Title" 0
        ⟨["K"], [], []⟩).introspected_types ∧
      builtin_scalars.contains "Title" = false ∧ is_meta_name "Title" = false ∧
      "Title" ∉ ["K"]) := by
  have h := no_duplicate_introspection_requests (fun _ => none) 3 0 "Title" ["K"] []
  exact ⟨h.1, h.2 "Title" (by decide)⟩

/-! ## Claim C6 (connection scaffold and node-type resolution) -/

/-- Claim C6: every synthesized connection body is the fixed pagination
scaffold around some node body; the node type is determined by following the
connection type's `edges` field to its edge type and then that edge type's
`node` field, both through the registry; when the node type cannot be
resolved or is unknown, the generic scaffold is used, whose node body is the
minimal `\x7b id \x7d` block. -/
theorem connection_body_scaffold (reg : Registry) (ct : String) (d : Nat)
    (v : List String) (lim : Bool) :
    (∃ nq, build_validated_connection_query reg ct d v lim =
      connection_scaffold d nq) ∧
    (∀ (td : TypeEntry) (ef : FieldDescr) (etd : TypeEntry) (nf : FieldDescr),
      lookupType reg (clean_type_name ct) = some td →
      td.fields.find? (fun f => f.name == "edges") = some ef →
      lookupType reg (clean_type_name ef.type) = some etd →
      etd.fields.find? (fun f => f.name == "node") = some nf →
      determine_node_type_from_connection reg ct = some (clean_type_name nf.type)) ∧
    (determine_node_type_from_connection reg (clean_type_name ct) = none →
      build_validated_connection_query reg ct d v lim =
        build_generic_connection_query (clean_type_name ct) d v) ∧
    (∀ n, determine_node_type_from_connection reg (clean_type_name ct) = some n →
      lookupType reg n = none →
      build_validated_connection_query reg ct d v lim =
        build_generic_connection_query (clean_type_name ct) d v) ∧
    build_generic_connection_query (clean_type_name ct) d v =
      connection_scaffold d (id_only_node_query d) := by
  refine ⟨?_, ?_, ?_, ?_, rfl⟩
  · unfold build_validated_connection_query
    split
    · exact ⟨_, rfl⟩
    · split
      · exact ⟨_, rfl⟩
      · split
        · exact ⟨_, rfl⟩
        · split
          · exact ⟨_, rfl⟩
          · exact ⟨_, rfl⟩
  · intro td ef etd nf h1 h2 h3 h4
    simp only [determine_node_type_from_connection, h1, h2, h3, h4]
  · intro hdet
    unfold build_validated_connection_query
    split
    · rfl
    · simp only [hdet]
  · intro n hdet hlk
    unfold build_validated_connection_query
    split
    · rfl
    · simp only [hdet, hlk]

/-- Witness for claim C6 on the Scenario-B schema: the node type of
`XConnection!` resolves to `Y` through the registry, and the synthesized body
is the pagination scaffold. -/
theorem connection_body_scaffold_witness :
    determine_node_type_from_connection connection_registry "XConnection!" =
      some "Y" ∧
    ∃ nq, build_validated_connection_query connection_registry "XConnection!" 1
      ["P"] true = connection_scaffold 1 nq := by
  have h := connection_body_scaffold connection_registry "XConnection!" 1 ["P"] true
  exact ⟨h.2.1 xconnection_entry (mkField "edges" "[XEdge!]!") xedge_entry
    (mkField "node" "Y!") rfl rfl rfl rfl, h.1⟩

/-! ## Claim C7 (edge bodies) -/

/-- Counterexample to claim C7: for the edge type `XEdge`, whose `node` field
resolves through the registry to the type `Y` (which has a `votes` field),
the synthesized edge body is the bare `node \x7b id \x7d cursor` scaffold:
the node type is obtained by deleting `Edge` from the type name (giving the
unknown name `X`), not by resolving the `node` field. -/
theorem edge_node_resolution_counterexample :
    build_validated_edge_query connection_registry 16 "XEdge" 0 ["P"] =
      edge_scaffold 0 "" ∧
    removeEdgeAll "XEdge" = "X" ∧
    lookupType connection_registry "X" = none ∧
    (xedge_entry.fields.find? (fun f => f.name == "node")).map
      (fun f => clean_type_name f.type) = some "Y" ∧
    pyIn "votes" (build_query_body connection_registry 15 "Y" 2 ["XEdge"] none) =
      true ∧
    pyIn "votes" (build_validated_edge_query connection_registry 16 "XEdge" 0 ["P"]) =
      false := by
  refine ⟨rfl, rfl, rfl, rfl, by decide, by decide⟩

/-- Claim C7, amended: every synthesized edge body has the fixed
`node \x7b id ... \x7d cursor` scaffold shape, and the spliced node content
comes from the edge type's name with `Edge` deleted; when that name is not in
the registry the node body stays minimal, regardless of what the edge type's
`node` field says. -/
theorem edge_body_shape (reg : Registry) (fuel : Nat) (e : String) (d : Nat)
    (v : List String) :
    (∃ mid, build_validated_edge_query reg fuel e d v = edge_scaffold d mid) ∧
    (lookupType reg (removeEdgeAll e) = none →
      build_validated_edge_query reg (fuel + 1) e d v = edge_scaffold d "") := by
  constructor
  · cases fuel with
    | zero => exact ⟨"", rfl⟩
    | succ f => exact ⟨_, rfl⟩
  · intro h
    simp only [build_validated_edge_query, h]

/-- Witness for the amended claim C7 at the Scenario-B schema. -/
theorem edge_body_shape_witness :
    lookupType connection_registry (removeEdgeAll "XEdge") = none ∧
    build_validated_edge_query connection_registry 8 "XEdge" 0 [] =
      edge_scaffold 0 "" :=
  ⟨rfl, (edge_body_shape connection_registry 7 "XEdge" 0 []).2 rfl⟩

/-! ## Claim C10 (the generator returns the document despite failed validation) -/

/-- Claim C10: for every registry type with at least one field, the per-type
generator returns exactly the document it assembled, and the final
document-level validation only decides whether the warning flag is set: a
`false` verdict never suppresses, replaces or modifies the returned query
string. -/
theorem generated_query_returned_despite_validation (reg : Registry) (fuel : Nat)
    (type_name entity_id : String) (td : TypeEntry)
    (h1 : lookupType reg type_name = some td) (h2 : td.fields.isEmpty = false) :
    generate_example_query_for_type reg fuel type_name entity_id =
      (some (gen_type_final_query reg fuel type_name entity_id 5 td.fields),
       !(validate_generated_query reg
           (gen_type_final_query reg fuel type_name entity_id 5 td.fields)
           ((find_query_field_for_type reg type_name).getD (pyLower type_name))).1) := by
  simp [generate_example_query_for_type, h1, h2]

/-- Witness for claim C10 at a schema whose Query type has no operation for
`A`: the validation verdict is `false` (warning emitted), yet the assembled
document is returned unchanged. -/
theorem generated_query_returned_despite_validation_witness :
    generate_example_query_for_type c10_registry 8 "A" "e1" =
      (some (gen_type_final_query c10_registry 8 "A" "e1" 5 c10_a_entry.fields),
       true) ∧
    (validate_generated_query c10_registry
      (gen_type_final_query c10_registry 8 "A" "e1" 5 c10_a_entry.fields) "a").1 =
      false := by
  constructor
  · exact (generated_query_returned_despite_validation c10_registry 8 "A" "e1"
      c10_a_entry rfl rfl).trans (by decide)
  · decide

/-! ## Claim C2's witness -/

/-- Witness for claim C2: concrete documents produced by both entry points on
`witness_registry` are balanced and `query`-prefixed. -/
theorem synthesized_documents_witness :
    balancedBraces
      (((generate_example_query_for_type witness_registry 8 "Title" "tt1").1).getD
        "") ∧
    (∃ r, ((generate_example_query_for_type witness_registry 8 "Title"
      "tt1").1).getD "" = "query" ++ r) ∧
    balancedBraces
      ((generate_example_query_for_operation witness_registry 8 "title"
        "matrix").getD "") ∧
    ∃ r, (generate_example_query_for_operation witness_registry 8 "title"
      "matrix").getD "" = "query" ++ r := by
  have h := synthesized_documents_balanced_and_query_prefixed witness_registry 8
    "Title" "tt1" "title" "matrix"
    (by unfold cleanRegistry cleanEntry; decide) (by decide) (by decide)
  have hpair : generate_example_query_for_type witness_registry 8 "Title" "tt1" =
      (some (((generate_example_query_for_type witness_registry 8 "Title"
        "tt1").1).getD ""),
       (generate_example_query_for_type witness_registry 8 "Title" "tt1").2) := rfl
  obtain ⟨hb1, hq1⟩ := h.1 _ _ hpair
  have hop : generate_example_query_for_operation witness_registry 8 "title"
      "matrix" =
      some ((generate_example_query_for_operation witness_registry 8 "title"
        "matrix").getD "") := rfl
  obtain ⟨hb2, hq2⟩ := h.2 _ hop
  exact ⟨hb1, hq1, hb2, hq2⟩

end Introspection
